import Mathlib

/-!
# Verification of the h2h booking backend (allocation, pricing, promo, webhook)

A shallow embedding of the core of `src/h2h/views.py` and `src/h2h/models.py`:

* the pricing engine `_compute_booking_pricing`,
* the promo-code discount `_apply_promocode` (including a faithful model of the
  IEEE-754 binary64 arithmetic used by `int(total_inr * (promo.value / 100.0))`),
* the allocation engine `allocate_units_for_booking` together with
  `_units_taken_for_event` and the package unit-type fallback map,
* the Razorpay webhook handler `razorpay_webhook` (order resolution,
  idempotent mark-paid, payment side effects),
* the gateway fee gross-up (modelled from the spec, the code is not in `src/`).

Database rows are embedded as structures, the database as lists of rows; the
Django ORM queries used by the code are translated into list filters that keep
the evaluation order of the source.  All definitions are executable so that
concrete scenarios evaluate by `decide` / `rfl`.
-/

namespace H2H

/-! ## Exact fraction arithmetic and the IEEE-754 binary64 model

Python's `round` on floats is round-half-to-even.  CPython floats are IEEE-754
binary64; `toDoubleZ` rounds an exact fraction `a / b` (with `b > 0`) to the
nearest representable binary64 value (round-nearest, ties-to-even), which is
exact for all the magnitudes the code manipulates (no subnormals / overflow in
scope).  Fractions are kept as explicit `ℤ` pairs so that every concrete
scenario evaluates inside the kernel. -/

/-- Round the fraction `a / b` (with `b > 0`) to the nearest integer, ties to
even (Python `round`). -/
def roundHalfEvenZ (a b : ℤ) : ℤ :=
  let f := Int.fdiv a b
  let r2 := 2 * (a - f * b)
  if r2 < b then f
  else if b < r2 then f + 1
  else if f % 2 = 0 then f else f + 1

/-- Python `int()` on the fraction `a / b` (with `b > 0`): truncation toward
zero. -/
def pyTruncZ (a b : ℤ) : ℤ :=
  if 0 ≤ a then Int.fdiv a b else - Int.fdiv (-a) b

/-- Scale the positive fraction `a / b` into the binade `[2^52, 2^53)`.
State `(a, b, sn, sd)`: the current scaled value is `a / b` and equals the
original value times `sn / sd` (all positive, `sn`/`sd` powers of two).
Fuel-bounded; 2200 steps cover the full double range. -/
def norm52Z : ℕ → ℤ → ℤ → ℤ → ℤ → ℤ × ℤ × ℤ × ℤ
  | 0, a, b, sn, sd => (a, b, sn, sd)
  | fuel + 1, a, b, sn, sd =>
    if a < 2 ^ 52 * b then norm52Z fuel (2 * a) b (2 * sn) sd
    else if 2 ^ 53 * b ≤ a then norm52Z fuel a (2 * b) sn (2 * sd)
    else (a, b, sn, sd)

/-- Nearest binary64 value of the positive fraction `a / b`, as a fraction
`(num, den)` with positive power-of-two denominator. -/
def toDoublePosZ (a b : ℤ) : ℤ × ℤ :=
  match norm52Z 2200 a b 1 1 with
  | (a', b', sn, sd) => (roundHalfEvenZ a' b' * sd, sn)

/-- Nearest binary64 value of the fraction `a / b` (with `b > 0`), as a
fraction `(num, den)` with positive denominator. -/
def toDoubleZ (a b : ℤ) : ℤ × ℤ :=
  if a = 0 then (0, 1)
  else if a < 0 then
    match toDoublePosZ (-a) b with
    | (n, d) => (-n, d)
  else toDoublePosZ a b

/-! ## String helpers

Python string primitives, re-implemented over the character list so that
concrete scenarios reduce inside the kernel.  String comparison is
lexicographic by code point, as in Python (the database collation used for
`order_by` ties is immaterial to the claims). -/

/-- Python `str.lower()` (ASCII letters suffice for the names in scope). -/
def pyLower (s : String) : String := ⟨s.data.map Char.toLower⟩

/-- Python `str.upper()` (ASCII letters suffice for the names in scope). -/
def pyUpper (s : String) : String := ⟨s.data.map Char.toUpper⟩

/-- Python `str.strip()`. -/
def pyStrip (s : String) : String :=
  ⟨((s.data.dropWhile Char.isWhitespace).reverse.dropWhile Char.isWhitespace).reverse⟩

/-- Strict lexicographic order on code points. -/
def charListLt : List Char → List Char → Bool
  | [], [] => false
  | [], _ :: _ => true
  | _ :: _, [] => false
  | a :: as, b :: bs =>
    if a.toNat < b.toNat then true
    else if b.toNat < a.toNat then false
    else charListLt as bs

/-- Strict string comparison (`<`). -/
def strLt (s t : String) : Bool := charListLt s.data t.data

/-- Non-strict string comparison (`≤`). -/
def strLe (s t : String) : Bool := s = t || charListLt s.data t.data

/-! ## Data model (`src/h2h/models.py`) -/

/-- `Unit.STATUS` choices. -/
inductive UStatus where
  | available | hold | occupied | maintenance
  deriving DecidableEq, Repr

/-- `Booking.STATUS` choices.  (`PARTIAL` is spelled `partialPaid` here.) -/
inductive BStatus where
  | pendingPayment | partialPaid | confirmed | cancelled
  deriving DecidableEq, Repr

/-- `PromoCode.KIND` choices. -/
inductive PKind where
  | percent | flat
  deriving DecidableEq, Repr

/-- A row of `h2h.models.Unit`.  `propertyName` / `unitTypeName` denormalize
the `property__name` / `unit_type__name` joins used in `order_by`. -/
structure Unit where
  id : ℕ
  propertyId : ℕ
  unitTypeId : ℕ
  category : String
  label : String
  propertyName : String
  unitTypeName : String
  capacity : ℕ
  status : UStatus
  deriving DecidableEq, Repr

/-- A row of `h2h.models.UnitType` (used by the name-fallback resolution). -/
structure UnitType where
  id : ℕ
  name : String
  deriving DecidableEq, Repr

/-- A row of `h2h.models.Allocation`; `created_at` is irrelevant here. -/
structure Allocation where
  bookingId : ℕ
  unitId : ℕ
  seats : ℕ
  deriving DecidableEq, Repr

/-- A row of `h2h.models.Event` (dates as abstract integers). -/
structure Event where
  id : ℕ
  startDate : ℤ
  endDate : ℤ
  deriving DecidableEq, Repr

/-- A companion entry of `Booking.companions` (JSON); only the fields the
modelled code reads.  `age = none` is an absent/unparseable age. -/
structure Companion where
  age : Option ℤ
  gender : String
  deriving DecidableEq, Repr

/-- The exact value of a CPython binary64 float, as a fraction with positive
denominator. -/
structure PyFloat where
  n : ℤ
  d : ℤ
  deriving DecidableEq, Repr

/-- Pricing-relevant fields of `h2h.models.Package`.
`allowedUnitTypeIds` is the `allowed_unit_types` M2M (list of `UnitType` ids);
`childHalfMultiplier` is a CPython float (`FloatField`). -/
structure Package where
  id : ℕ
  name : String
  priceInr : ℤ
  allowedUnitTypeIds : List ℕ
  baseIncludes : ℕ
  extraPriceAdultInr : ℤ
  childFreeMaxAge : ℤ
  childHalfMaxAge : ℤ
  childHalfMultiplier : PyFloat
  deriving DecidableEq, Repr

/-- A row of `h2h.models.Booking` (the fields read or written by the modelled
code).  `guestAges` entries are pre-parsed: `none` is a non-integer entry. -/
structure Booking where
  id : ℕ
  eventId : Option ℕ
  guests : ℕ
  propertyId : Option ℕ
  unitTypeId : Option ℕ
  category : String
  status : BStatus
  checkIn : Option ℤ
  checkOut : Option ℤ
  pricingTotal : Option ℤ
  companions : List Companion
  guestAges : List (Option ℤ)
  extraAdults : ℕ
  extraChildrenHalf : ℕ
  extraChildrenFree : ℕ
  primaryGender : String
  deriving DecidableEq, Repr

/-- A row of `h2h.models.PromoCode` (activity window is out of scope here;
`_get_live_promocode` is modelled by passing `none` for a dead code). -/
structure PromoCode where
  code : String
  kind : PKind
  value : ℕ
  deriving DecidableEq, Repr

/-- A row of `h2h.models.Order`; the `package` FK is embedded by value. -/
structure Order where
  id : ℕ
  razorpayOrderId : String
  razorpayPaymentId : Option String
  paid : Bool
  bookingId : Option ℕ
  package : Package
  deriving DecidableEq, Repr

/-- The database state the modelled operations read and write. -/
structure St where
  units : List Unit
  unitTypes : List UnitType
  allocations : List Allocation
  bookings : List Booking
  orders : List Order
  events : List Event
  deriving DecidableEq, Repr

/-- `Booking.objects.get(id=i)` as used through FK accesses (first row wins). -/
def getBooking (st : St) (i : ℕ) : Option Booking :=
  st.bookings.find? (fun b => b.id = i)

/-- `Event` FK dereference. -/
def getEvent (st : St) (i : ℕ) : Option Event :=
  st.events.find? (fun e => e.id = i)

end H2H

namespace H2H

/-! ## Pricing engine: `_compute_booking_pricing` (views.py 382-528) -/

/-- Member price class. -/
inductive PriceClass where
  | adult | half | free
  deriving DecidableEq, Repr

/-- `_as_int_or_none`: clamp a parsed age into `[0, 120]`; unparseable is
`none` (already the `none` of the model). -/
def asIntOrNone (a : Option ℤ) : Option ℤ :=
  a.map (fun v => max 0 (min 120 v))

/-- `_classify`: unknown age ⇒ adult (pricing fail-safe). -/
def classify (freeMax halfMax : ℤ) : Option ℤ → PriceClass
  | none => .adult
  | some a => if a ≤ freeMax then .free else if a ≤ halfMax then .half else .adult

/-- Result of `_compute_booking_pricing`: the total plus the breakdown fields
the claims talk about. -/
structure PricingResult where
  total : ℤ
  extraAdults : ℕ
  childHalf : ℕ
  childFree : ℕ
  allocAdults : ℕ
  allocHalfs : ℕ
  allocFrees : ℕ
  guestsTotal : ℕ
  childHalfPrice : ℤ
  computedFrom : String
  deriving DecidableEq, Repr

/-- `_compute_booking_pricing(package, booking)`.

Numeric notes: `child_half_price = int(round(extra_adult_price * half_mult))`
multiplies an int by a CPython float and applies round-half-even; the float
product is exact for the dyadic multipliers in scope, so the product is taken
in `ℚ`.  The Python `or` defaults on falsy (zero/empty) fields are kept. -/
def compute_booking_pricing (package : Package) (booking : Booking) : PricingResult :=
  let base_includes : ℕ := if package.baseIncludes = 0 then 1 else package.baseIncludes
  let base_price : ℤ := package.priceInr
  let extra_adult_price : ℤ :=
    if package.extraPriceAdultInr = 0 then base_price else package.extraPriceAdultInr
  let half_mult : PyFloat :=
    if package.childHalfMultiplier.n = 0 then ⟨1, 2⟩ else package.childHalfMultiplier
  let free_max : ℤ := if package.childFreeMaxAge = 0 then 5 else package.childFreeMaxAge
  let half_max0 : ℤ := if package.childHalfMaxAge = 0 then 15 else package.childHalfMaxAge
  let half_max : ℤ := if half_max0 < free_max then free_max else half_max0
  let cls := classify free_max half_max
  let pick :=
    if booking.companions ≠ [] then
      -- PATH 1: companions present → derive the whole party
      let guests_total := 1 + booking.companions.length
      let ages_everyone : List (Option ℤ) :=
        none :: booking.companions.map (fun c => asIntOrNone c.age)
      let adults := ages_everyone.filter (fun a => cls a = .adult)
      let halfs := ages_everyone.filter (fun a => cls a = .half)
      let frees := ages_everyone.filter (fun a => cls a = .free)
      let remaining_base := min base_includes guests_total
      let alloc_adults := min adults.length remaining_base
      let rb1 := remaining_base - alloc_adults
      let alloc_halfs := min halfs.length rb1
      let rb2 := rb1 - alloc_halfs
      let alloc_frees := min frees.length rb2
      let extra_adults := adults.length - alloc_adults
      let child_half := halfs.length - alloc_halfs
      let child_free := frees.length - alloc_frees
      (extra_adults, child_half, child_free, alloc_adults, alloc_halfs, alloc_frees,
        guests_total, "companions")
    else if booking.guestAges ≠ [] then
      -- PATH 2: guest_ages are EXTRAS ONLY (legacy behavior)
      let sane := booking.guestAges.map asIntOrNone
      let a := (sane.filter (fun x => cls x = .adult)).length
      let h := (sane.filter (fun x => cls x = .half)).length
      let f := (sane.filter (fun x => cls x = .free)).length
      let extras_total := a + h + f
      let d := base_includes + extras_total
      let guests_total := max d (if booking.guests = 0 then d else booking.guests)
      (a, h, f, 0, 0, 0, guests_total, "guest_ages")
    else
      -- PATH 3: manual counts
      let a := booking.extraAdults
      let h := booking.extraChildrenHalf
      let f := booking.extraChildrenFree
      let extras_total := a + h + f
      let d := base_includes + extras_total
      let guests_total := max d (if booking.guests = 0 then d else booking.guests)
      (a, h, f, 0, 0, 0, guests_total, "manual_counts")
  match pick with
  | (extra_adults, child_half, child_free, aa, ah, af, guests_total, src) =>
    -- `int(round(extra_adult_price * half_mult))`: int-to-float conversion,
    -- one correctly rounded float product, then round-half-to-even.
    let ed := toDoubleZ extra_adult_price 1
    let pr := toDoubleZ (ed.1 * half_mult.n) (ed.2 * half_mult.d)
    let child_half_price : ℤ := roundHalfEvenZ pr.1 pr.2
    let extras_amount : ℤ := extra_adults * extra_adult_price + child_half * child_half_price
    { total := base_price + extras_amount
      extraAdults := extra_adults
      childHalf := child_half
      childFree := child_free
      allocAdults := aa
      allocHalfs := ah
      allocFrees := af
      guestsTotal := guests_total
      childHalfPrice := child_half_price
      computedFrom := src }

/-! ## Promo discount: `_apply_promocode` (views.py 1010-1036)

`int(total_inr * (promo.value / 100.0))` is CPython arithmetic on binary64:
`promo.value / 100.0` converts the int to a double and performs one correctly
rounded division; the multiplication converts `total_inr` to a double and
performs one correctly rounded product; `int()` truncates toward zero. -/

/-- The raw PERCENT discount `int(total_inr * (promo.value / 100.0))`:
`value` is converted to a double, divided by `100.0` (one rounding), then
`total_inr` is converted to a double and multiplied (one rounding), and the
result is truncated toward zero. -/
def pyPercentDiscount (total : ℤ) (value : ℕ) : ℤ :=
  let vd := toDoubleZ (value : ℤ) 1
  let q := toDoubleZ vd.1 (vd.2 * 100)
  let td := toDoubleZ total 1
  let p := toDoubleZ (td.1 * q.1) (td.2 * q.2)
  pyTruncZ p.1 p.2

/-- `_apply_promocode(total_inr, promo)` → `(discount_inr, final_total_inr)`.
(The breakdown dict only echoes these numbers.) -/
def apply_promocode (total_inr : ℤ) (promo : Option PromoCode) : ℤ × ℤ :=
  match promo with
  | none => (0, total_inr)
  | some promo =>
    let discount0 : ℤ :=
      match promo.kind with
      | .percent => pyPercentDiscount total_inr promo.value
      | .flat => (promo.value : ℤ)
    let discount := max 0 (min discount0 (max 0 (total_inr - 1)))
    (discount, total_inr - discount)

/-! ## Gateway fee gross-up

Modelled from the spec: the function `gross_up(net, rate, gstRate)` is not in
`src/` (only `pdf.py` reads its output line items `platform_fee_inr` /
`platform_gst_inr`).  Following the spec's words: it solves
`gross = net / (1 - rate*(1+gstRate))`, rounds the gross, and returns the fee
portion and the tax-on-fee portion as separate rounded line items (the gst
line is the remainder of the rounded combined deduction, so the two line items
always add up to the rounded total deduction). -/

/-- Round-half-up to an integer (generic money rounding). -/
def roundNearest (q : ℚ) : ℤ := ⌊q + 1/2⌋

/-- Modelled from the spec: `gross_up(net, rate, gstRate)` returning
`(gross, fee, gst_on_fee)`. -/
def gross_up (net : ℕ) (rate gstRate : ℚ) : ℤ × ℤ × ℤ :=
  let r : ℚ := rate * (1 + gstRate)
  let gross : ℤ := roundNearest ((net : ℚ) / (1 - r))
  let fee : ℤ := roundNearest ((gross : ℚ) * rate)
  let gstOnFee : ℤ := roundNearest ((gross : ℚ) * r) - fee
  (gross, fee, gstOnFee)

end H2H

namespace H2H

/-! ## Allocation engine (`views.py` 261-805)

`_units_taken_for_event`, the package→unit-type fallback map, and
`allocate_units_for_booking`.  Failures are raised as untyped `ValueError`
exceptions in the source; the `@transaction.atomic` decorator makes a raise
roll back every mutation, so the embedding returns `Except` with the input
state untouched on error. -/

/-- A raised Python exception (the allocator only raises `ValueError`s). -/
inductive PyErr where
  | valueError (msg : String)
  deriving DecidableEq, Repr

/-- The message of a raised exception. -/
def PyErr.msg : PyErr → String
  | .valueError m => m

/-- Does booking `b` hold inventory for event `ev`
(`booking__event=event, booking__status__in=["PENDING_PAYMENT","CONFIRMED"]`)? -/
def bookingHolds (b : Booking) (ev : ℕ) : Bool :=
  b.eventId = some ev && (b.status = BStatus.pendingPayment || b.status = BStatus.confirmed)

/-- Is unit `u` already tied up for event `ev` via an allocation on a
pending/confirmed booking (the `Exists(taken)` annotation)? -/
def unitTaken (st : St) (ev : ℕ) (u : Unit) : Bool :=
  st.allocations.any fun a =>
    a.unitId = u.id &&
      (match getBooking st a.bookingId with
       | some b => bookingHolds b ev
       | none => false)

/-- `_units_taken_for_event(event)`: units already tied up for this event. -/
def units_taken_for_event (st : St) (ev : ℕ) : List Unit :=
  st.units.filter (unitTaken st ev)

/-- `PACKAGE_UNITTYPE_MAP`: name-based fallback from package name to unit-type
names. -/
def PACKAGE_UNITTYPE_MAP (key : String) : List String :=
  if key = "room" then ["COTTAGE", "HUT"]
  else if key = "swiss" then ["SWISS TENT"]
  else if key = "tent" then ["DOME TENT"]
  else []

/-- `_allowed_unit_types_for_package(package)` restricted to the fallback
branch (inside `allocate_units_for_booking` it is only consulted after the
M2M came back empty, so the M2M branch is dead there). -/
def allowed_unit_types_for_package (pkg : Package) : List String :=
  PACKAGE_UNITTYPE_MAP (pyLower (pyStrip pkg.name))

/-- Resolution of the allowed unit-type ids in `allocate_units_for_booking`
(views.py 698-712): M2M first, else fallback names resolved exactly, else
case-insensitively. -/
def resolveAllowedIds (st : St) (pkg : Package) : List ℕ :=
  if pkg.allowedUnitTypeIds ≠ [] then pkg.allowedUnitTypeIds
  else
    let names := allowed_unit_types_for_package pkg
    if names = [] then []
    else
      let ids := (st.unitTypes.filter (fun ut => ut.name ∈ names)).map (fun ut => ut.id)
      if ids ≠ [] then ids
      else
        names.filterMap fun nm =>
          (st.unitTypes.find? (fun ut => pyUpper ut.name = pyUpper nm)).map (fun ut => ut.id)

/-- `pinned_ut` (views.py 717): the booking's unit type, if set and allowed. -/
def pinnedUtOf (b : Booking) (allowedIds : List ℕ) : Option ℕ :=
  match b.unitTypeId with
  | some ut => if ut ∈ allowedIds then some ut else none
  | none => none

/-- The unit-type filter of the candidate queryset (views.py 722). -/
def utFilterOf (b : Booking) (allowedIds : List ℕ) : List ℕ :=
  match pinnedUtOf b allowedIds with
  | some ut => [ut]
  | none => allowedIds

/-- `u.capacity or 1`. -/
def capOr1 (c : ℕ) : ℕ := if c = 0 then 1 else c

/-- `Allocation.seats_used`: `self.seats or (self.unit.capacity or 1)`. -/
def seats_used (u : Unit) (a : Allocation) : ℕ :=
  if a.seats ≠ 0 then a.seats else capOr1 u.capacity

/-- Sum of `(u.capacity or 1)` over a unit list. -/
def capSum (l : List Unit) : ℕ := (l.map (fun u => capOr1 u.capacity)).sum

/-- The eligible (lockable) candidate units (views.py 719-724): allowed unit
type, `status="AVAILABLE"`, not taken for the event. -/
def eligibleUnits (st : St) (ev : ℕ) (utFilter : List ℕ) : List Unit :=
  st.units.filter fun u =>
    u.unitTypeId ∈ utFilter && u.status = UStatus.available &&
      u.id ∉ (units_taken_for_event st ev).map (fun t => t.id)

/-- Rank of the `models.Case` ordering key: same property first (only when the
booking has a truthy `property_id`). -/
def caseRank (b : Booking) (u : Unit) : ℕ :=
  let bp := b.propertyId.getD 0
  if bp ≠ 0 then (if u.propertyId = bp then 0 else 1) else 0

/-- The queryset ordering (views.py 728-739): same-property case (when
`booking.property_id` is truthy), then capacity descending, then property
name, unit-type name, label.  A non-strict lexicographic comparison; the sort
below is stable. -/
def poolLE (b : Booking) (u v : Unit) : Bool :=
  if caseRank b u ≠ caseRank b v then caseRank b u < caseRank b v
  else if u.capacity ≠ v.capacity then v.capacity < u.capacity
  else if u.propertyName ≠ v.propertyName then strLt u.propertyName v.propertyName
  else if u.unitTypeName ≠ v.unitTypeName then strLt u.unitTypeName v.unitTypeName
  else strLe u.label v.label

/-- The locked, ordered candidate pool `pool = list(qs)`. -/
def poolOf (st : St) (b : Booking) (ev : ℕ) (utFilter : List ℕ) : List Unit :=
  (eligibleUnits st ev utFilter).insertionSort (fun u v => poolLE b u v = true)

/-- First-occurrence list of `(property_id, unit_type_id)` cluster keys, in
pool order (`defaultdict` insertion order). -/
def clusterKeys (pool : List Unit) : List (ℕ × ℕ) :=
  pool.foldl
    (fun ks u => if (u.propertyId, u.unitTypeId) ∈ ks then ks else ks ++ [(u.propertyId, u.unitTypeId)])
    []

/-- The units of one cluster, in pool order. -/
def clusterUnits (pool : List Unit) (k : ℕ × ℕ) : List Unit :=
  pool.filter fun u => u.propertyId = k.1 && u.unitTypeId = k.2

/-- `cluster_score` (views.py 751-758). -/
def clusterScore (b : Booking) (pinnedUt : Option ℕ) (k : ℕ × ℕ) : ℤ :=
  let bp := b.propertyId.getD 0
  let s1 : ℤ := if bp ≠ 0 && k.1 = bp then -2 else 0
  let s2 : ℤ := if (pinnedUt.getD 0) ≠ 0 && k.2 = pinnedUt.getD 0 then -1 else 0
  s1 + s2

/-- The greedy per-cluster (and cross-cluster) accumulation: the shortest
prefix whose capacity sum reaches `needed` (the whole list if it never does,
matching the Python loop that runs off the end). -/
def prefixNeeded (needed : ℕ) : List Unit → List Unit
  | [] => []
  | u :: rest =>
    if needed ≤ capOr1 u.capacity then [u]
    else u :: prefixNeeded (needed - capOr1 u.capacity) rest

/-- The single-cluster phase (views.py 760-774): walk the score-sorted
clusters; the first whose total capacity reaches `needed` yields its greedy
prefix and the booking's `(property_id, unit_type_id)` slice. -/
def pickCluster (pool : List Unit) (needed : ℕ) :
    List (ℕ × ℕ) → Option ((ℕ × ℕ) × List Unit)
  | [] => none
  | k :: rest =>
    if needed ≤ capSum (clusterUnits pool k) then
      some (k, prefixNeeded needed (clusterUnits pool k))
    else pickCluster pool needed rest

/-- Commit phase (views.py 791-805): insert one `Allocation(seats=0)` per
picked unit, set the units `OCCUPIED`, autofill the booking slice, category,
`CONFIRMED` status and event dates, and save. -/
def commitAllocation (st : St) (b : Booking) (ev : ℕ) (p t : ℕ) (h : Unit)
    (picks : List Unit) : St × Booking :=
  let newAllocs := picks.map fun u => Allocation.mk b.id u.id 0
  let pickIds : List ℕ := picks.map fun u => u.id
  let units' := st.units.map fun u =>
    if u.id ∈ pickIds then { u with status := UStatus.occupied } else u
  let dates :=
    match getEvent st ev with
    | some e =>
      if b.checkIn = none || b.checkOut = none then (some e.startDate, some e.endDate)
      else (b.checkIn, b.checkOut)
    | none => (b.checkIn, b.checkOut)
  let b' : Booking :=
    { b with
      propertyId := some p
      unitTypeId := some t
      category := if h.category = "" then b.category else h.category
      status := BStatus.confirmed
      checkIn := dates.1
      checkOut := dates.2 }
  let st' : St :=
    { st with
      allocations := st.allocations ++ newAllocs
      units := units'
      bookings := st.bookings.map fun x => if x.id = b.id then b' else x }
  (st', b')

/-- `allocate_units_for_booking(booking, pkg)` (views.py 675-805).

Returns the new state and the picked units, or the raised `ValueError` (in
which case `@transaction.atomic` leaves the state untouched).  The `pkg or
booking.order...` fallback is modelled by the `Option Package` argument: all
modelled call sites pass the package explicitly, `none` is the missing
context. -/
def allocate_units_for_booking (st : St) (booking : Booking) (pkg? : Option Package) :
    Except PyErr (St × List Unit) :=
  match booking.eventId with
  | none => .error (.valueError "Booking missing event")
  | some ev =>
    match pkg? with
    | none => .error (.valueError "Package context missing")
    | some pkg =>
      let needed := max 1 booking.guests
      let allowedIds := resolveAllowedIds st pkg
      if allowedIds = [] then
        .error (.valueError "Package has no allowed unit types configured")
      else
        let pinnedUt := pinnedUtOf booking allowedIds
        let pool := poolOf st booking ev (utFilterOf booking allowedIds)
        if pool = [] then
          .error (.valueError "Insufficient capacity for requested guests")
        else
          let sortedKeys :=
            (clusterKeys pool).insertionSort
              (fun k1 k2 => clusterScore booking pinnedUt k1 ≤ clusterScore booking pinnedUt k2)
          match pickCluster pool needed sortedKeys with
          | some ((p, t), picks) =>
            -- the cluster phase always reaches `needed`, the final guard passes
            match picks with
            | [] => .error (.valueError "Insufficient capacity for requested guests")
            | h :: _ =>
              if capSum picks < needed then
                .error (.valueError "Insufficient capacity for requested guests")
              else
                let r := commitAllocation st booking ev p t h picks
                .ok (r.1, picks)
          | none =>
            -- cross-cluster fallback: accumulate the pool in order
            let picks := prefixNeeded needed pool
            match picks with
            | [] => .error (.valueError "Insufficient capacity for requested guests")
            | h :: _ =>
              if capSum picks < needed then
                .error (.valueError "Insufficient capacity for requested guests")
              else
                let r := commitAllocation st booking ev h.propertyId h.unitTypeId h picks
                .ok (r.1, picks)

end H2H

namespace H2H

/-! ## Razorpay webhook (`views.py` 2178-2315)

The handler is modelled from the point where the notification has been
persisted, parsed and its HMAC signature verified (the guards before line
2219 reject without mutating anything but the log).  The webhook log row is
returned as part of the outcome instead of being stored in `St`, so that the
state transition is exactly the business mutation. -/

/-- The payload fields the dispatcher reads, per provider event shape. -/
inductive Notif where
  | paymentCaptured (orderId : Option String) (paymentId : Option String)
  | paymentLinkPaid (referenceId : Option String) (plOrderId : Option String)
      (payOrderId : Option String) (payId : Option String)
      (notesLocalRpOrder : Option String)
  | otherEvent (eventName : String)
  deriving DecidableEq, Repr

/-- The HTTP responses of the modelled (authentic, parsed) flow. -/
inductive Resp where
  | ok
  deriving DecidableEq, Repr

/-- What the handler produces besides the state: the log row fields and the
response. -/
structure WebhookOutcome where
  st : St
  logError : String
  processedOk : Bool
  matchedOrder : Option ℕ
  response : Resp
  deriving DecidableEq, Repr

/-- `pay.get("id")`-style truthiness: set a field only for a non-empty
string. -/
def setIfTruthy (new : Option String) (old : Option String) : Option String :=
  match new with
  | some s => if s = "" then old else some s
  | none => old

/-- `int()` of a decimal string (views.py 2253), restricted to plain digit
runs (the ids the system generates); a non-parse raises and is caught,
yielding no match. -/
def parseDigits (cs : List Char) : Option ℕ :=
  if cs ≠ [] && cs.all Char.isDigit then
    some (cs.foldl (fun acc c => acc * 10 + (c.toNat - 48)) 0)
  else none

/-- `ref.startswith("orderdb-")` and `int(ref.split("-", 1)[1])` (the first
`-` of a matching reference sits inside the marker, so the parsed suffix is
the rest of the string). -/
def parseOrderDbRef (s : String) : Option ℕ :=
  if s.data.take 8 = "orderdb-".data then parseDigits (s.data.drop 8) else none

/-- `mark_paid_by_order_id(order_id, payment_id)` acting on the order table
(views.py 2224-2238).  Returns the updated table and the matched order id
(`matched` is only assigned when the lookup succeeds). -/
def mark_paid_by_order_id (orders : List Order) (orderId? payId? : Option String) :
    List Order × Option ℕ :=
  match orderId? with
  | none => (orders, none)
  | some oid =>
    if oid = "" then (orders, none)
    else
      match orders.find? (fun o => o.razorpayOrderId = oid) with
      | none => (orders, none)
      | some o =>
        if o.paid then (orders, some o.id)
        else
          let o' := { o with
            paid := true
            razorpayPaymentId := setIfTruthy payId? o.razorpayPaymentId }
          (orders.map fun x => if x.id = o.id then o' else x, some o.id)

/-- `if pl.get("order_id"): matched.razorpay_order_id = pl["order_id"]`. -/
def refNewRzp (plOrderId? : Option String) (o : Order) : String :=
  match plOrderId? with
  | some x => if x = "" then o.razorpayOrderId else x
  | none => o.razorpayOrderId

/-- The `payment_link.paid` `reference_id` branch (views.py 2249-2263). -/
def refMark (orders : List Order) (ref? plOrderId? payId? : Option String) :
    List Order × Option ℕ :=
  match ref? with
  | none => (orders, none)
  | some ref =>
    match parseOrderDbRef ref with
    | none => (orders, none)
    | some localId =>
      match orders.find? (fun o => o.id = localId) with
      | none => (orders, none)
      | some o =>
        if o.paid then (orders, some o.id)
        else
          let o' := { o with
            paid := true
            razorpayPaymentId := setIfTruthy payId? o.razorpayPaymentId
            razorpayOrderId := refNewRzp plOrderId? o }
          (orders.map fun x => if x.id = o.id then o' else x, some o.id)

/-- The event dispatch (views.py 2241-2277): resolve and mark the local
order, trying the identifier locations in fixed priority order. -/
def resolveOrders (orders : List Order) (n : Notif) : List Order × Option ℕ :=
  match n with
  | .paymentCaptured oid pid => mark_paid_by_order_id orders oid pid
  | .paymentLinkPaid ref plOid payOid payId notes =>
    let r1 := refMark orders ref plOid payId
    match r1.2 with
    | some i => (r1.1, some i)
    | none =>
      let r2 := mark_paid_by_order_id r1.1 payOid payId
      match r2.2 with
      | some i => (r2.1, some i)
      | none =>
        let r3 := mark_paid_by_order_id r2.1 plOid payId
        match r3.2 with
        | some i => (r3.1, some i)
        | none =>
          match notes with
          | some nv => if nv = "" then (r3.1, none) else mark_paid_by_order_id r3.1 (some nv) payId
          | none => (r3.1, none)
  | .otherEvent _ => (orders, none)

/-- Ensure the pricing snapshot exists (views.py 2285-2290): compute and save
`pricing_total_inr` / `guests` when missing. -/
def ensurePricing (st : St) (pkg : Package) (b : Booking) : St × Booking :=
  match b.pricingTotal with
  | some _ => (st, b)
  | none =>
    let pr := compute_booking_pricing pkg b
    let b1 := { b with pricingTotal := some pr.total, guests := pr.guestsTotal }
    ({ st with bookings := st.bookings.map fun x => if x.id = b.id then b1 else x }, b1)

/-- The auto-allocation side effects (views.py 2280-2302): skipped when there
is no linked booking or it is already `CONFIRMED`; any exception from the
block is caught and recorded on the log row.  Returns the new state and the
log-error suffix. -/
def paymentSideEffects (st : St) (o : Order) : St × String :=
  match o.bookingId with
  | none => (st, "")
  | some bid =>
    match getBooking st bid with
    | none => (st, "")
    | some b =>
      if b.status = BStatus.confirmed then (st, "")
      else
        let pr := ensurePricing st o.package b
        match allocate_units_for_booking pr.1 pr.2 (some o.package) with
        | .ok (st2, picks) =>
          (st2, " | allocated_units=" ++ String.intercalate "," (picks.map fun u => u.label))
        | .error e => (pr.1, " | allocate_err: " ++ e.msg)

/-- `razorpay_webhook` after authenticity (views.py 2219-2309). -/
def razorpay_webhook (st : St) (n : Notif) : WebhookOutcome :=
  let r := resolveOrders st.orders n
  let st1 : St := { st with orders := r.1 }
  match r.2 with
  | none => ⟨st1, "", true, none, .ok⟩
  | some i =>
    match st1.orders.find? (fun o => o.id = i) with
    | none => ⟨st1, "", true, some i, .ok⟩
    | some o =>
      if o.paid then
        let se := paymentSideEffects st1 o
        ⟨se.1, se.2, true, some i, .ok⟩
      else ⟨st1, "", true, some i, .ok⟩

end H2H

namespace H2H

/-! ## Result projections and concrete fixtures -/

/-- The state of a successful allocation result. -/
def allocSt (r : Except PyErr (St × List Unit)) : Option St :=
  r.toOption.map fun p => p.1

/-- The picked unit ids of a successful allocation result. -/
def allocPickIds (r : Except PyErr (St × List Unit)) : Option (List ℕ) :=
  r.toOption.map fun p => p.2.map fun u => u.id

/-- The error message of a failed allocation result. -/
def allocErrMsg (r : Except PyErr (St × List Unit)) : Option String :=
  match r with
  | .error e => some e.msg
  | .ok _ => none

/-- The picked units' property ids of a successful allocation result. -/
def allocPickProps (r : Except PyErr (St × List Unit)) : Option (List ℕ) :=
  r.toOption.map fun p => p.2.map fun u => u.propertyId

/-- A default booking row; fixtures override the relevant fields. -/
def booking0 : Booking where
  id := 11
  eventId := some 1
  guests := 1
  propertyId := none
  unitTypeId := none
  category := ""
  status := BStatus.pendingPayment
  checkIn := none
  checkOut := none
  pricingTotal := some 100
  companions := []
  guestAges := []
  extraAdults := 0
  extraChildrenHalf := 0
  extraChildrenFree := 0
  primaryGender := "M"

/-- A default unit row; fixtures override the relevant fields. -/
def unit0 : Unit where
  id := 1
  propertyId := 1
  unitTypeId := 7
  category := "NORMAL"
  label := "T1"
  propertyName := "Camp A"
  unitTypeName := "DOME TENT"
  capacity := 4
  status := UStatus.available

/-- The package of the spec's scenarios A and B:
`base_includes=2, base_price=10000, extra_adult_price=3000,
child_half_multiplier=0.5, child_free_max_age=5, child_half_max_age=12`,
allowed unit types `{7}`. -/
def pkgScen : Package where
  id := 1
  name := "tent"
  priceInr := 10000
  allowedUnitTypeIds := [7]
  baseIncludes := 2
  extraPriceAdultInr := 3000
  childFreeMaxAge := 5
  childHalfMaxAge := 12
  childHalfMultiplier := ⟨1, 2⟩

/-- Scenario A party: primary of unknown age plus companions aged 3, 10, 30. -/
def bookingScenA : Booking :=
  { booking0 with
    companions := [⟨some 3, "F"⟩, ⟨some 10, "M"⟩, ⟨some 30, "F"⟩]
    guests := 4 }

/-- Scenario B booking: a party of five, all male. -/
def bookingScenB : Booking :=
  { booking0 with
    guests := 5
    companions := [⟨some 30, "M"⟩, ⟨some 31, "M"⟩, ⟨some 32, "M"⟩, ⟨some 33, "M"⟩] }

/-- Scenario B pool: exactly two available units of capacity 4 each. -/
def stScenB : St where
  units := [unit0, { unit0 with id := 2, label := "T2" }]
  unitTypes := [⟨7, "DOME TENT"⟩]
  allocations := []
  bookings := [bookingScenB]
  orders := []
  events := [⟨1, 100, 103⟩]

end H2H

namespace H2H

/-! ## Claim theorems -/

/-- C4: for package rules `base_includes=2, base_price=10000,
extra_adult_price=3000, child_half_multiplier=0.5, child_free_max_age=5,
child_half_max_age=12` and the party primary(unknown age) + ages `[3,10,30]`,
`_compute_booking_pricing` classifies unknown ages as adult, yields classes
adults={primary,30} (2), half={10} (1), free={3} (1), assigns both
base-included seats to the adults, and returns total
`10000 + 1×1500 = 11500`. -/
theorem pricing_scenario_A :
    (compute_booking_pricing pkgScen bookingScenA).total = 11500 ∧
    (compute_booking_pricing pkgScen bookingScenA).computedFrom = "companions" ∧
    (compute_booking_pricing pkgScen bookingScenA).extraAdults +
        (compute_booking_pricing pkgScen bookingScenA).allocAdults = 2 ∧
    (compute_booking_pricing pkgScen bookingScenA).childHalf +
        (compute_booking_pricing pkgScen bookingScenA).allocHalfs = 1 ∧
    (compute_booking_pricing pkgScen bookingScenA).childFree +
        (compute_booking_pricing pkgScen bookingScenA).allocFrees = 1 ∧
    (compute_booking_pricing pkgScen bookingScenA).allocAdults = 2 ∧
    (compute_booking_pricing pkgScen bookingScenA).allocHalfs = 0 ∧
    (compute_booking_pricing pkgScen bookingScenA).allocFrees = 0 ∧
    (compute_booking_pricing pkgScen bookingScenA).childHalf = 1 ∧
    (compute_booking_pricing pkgScen bookingScenA).childHalfPrice = 1500 ∧
    classify 5 12 none = PriceClass.adult := by
  decide

/-- C5 counterexample: the raw PERCENT discount is *not*
`floor(total*value/100)`: CPython computes `int(total * (value / 100.0))` in
binary64, and at `total=100, value=29` this yields `int(28.999999999999996) =
28`, not `floor(2900/100) = 29` (written `Int.fdiv 2900 100` below).  Also,
at `total=0` the returned final amount is `0`, not `≥ 1`. -/
theorem apply_promocode_not_floor :
    apply_promocode 100 (some ⟨"OFF29", PKind.percent, 29⟩) = (28, 72) ∧
    (apply_promocode 100 (some ⟨"OFF29", PKind.percent, 29⟩)).1 ≠ Int.fdiv (100 * 29) 100 ∧
    apply_promocode 0 (some ⟨"F50", PKind.flat, 50⟩) = (0, 0) := by
  decide

/-- C5 (amended): the raw PERCENT discount is the truncated binary64 product
`int(total*(value/100.0))` (which can differ from `floor(total*value/100)` by
one); the discount is then clamped to `[0, total-1]` whenever `total ≥ 1`, so
the final payable `total - discount` is at least 1; and PERCENT 10 on total
11500 yields discount 1150 and final 10350. -/
theorem apply_promocode_clamped (total : ℤ) (promo : Option PromoCode)
    (h : 1 ≤ total) :
    0 ≤ (apply_promocode total promo).1 ∧
    (apply_promocode total promo).1 ≤ total - 1 ∧
    (apply_promocode total promo).2 = total - (apply_promocode total promo).1 ∧
    1 ≤ (apply_promocode total promo).2 ∧
    (∀ v : ℕ, (apply_promocode total (some ⟨"P", PKind.percent, v⟩)).1 =
      max 0 (min (pyPercentDiscount total v) (max 0 (total - 1)))) ∧
    apply_promocode 11500 (some ⟨"SAVE10", PKind.percent, 10⟩) = (1150, 10350) := by
  have hscen : apply_promocode 11500 (some ⟨"SAVE10", PKind.percent, 10⟩) = (1150, 10350) := by
    decide
  constructor
  · cases promo with
    | none => simp [apply_promocode]
    | some p => simp only [apply_promocode]; omega
  constructor
  · cases promo with
    | none => simp [apply_promocode]; omega
    | some p => simp only [apply_promocode]; omega
  constructor
  · cases promo with
    | none => simp [apply_promocode]
    | some p => simp only [apply_promocode]
  constructor
  · cases promo with
    | none => simp [apply_promocode]; omega
    | some p => simp only [apply_promocode]; omega
  exact ⟨fun v => by simp only [apply_promocode], hscen⟩

/-- C5 amended-claim witness at `total = 2`, no promo. -/
theorem apply_promocode_clamped_witness :
    0 ≤ (apply_promocode 2 none).1 ∧
    (apply_promocode 2 none).1 ≤ 2 - 1 ∧
    (apply_promocode 2 none).2 = 2 - (apply_promocode 2 none).1 ∧
    1 ≤ (apply_promocode 2 none).2 ∧
    (∀ v : ℕ, (apply_promocode 2 (some ⟨"P", PKind.percent, v⟩)).1 =
      max 0 (min (pyPercentDiscount 2 v) (max 0 (2 - 1)))) ∧
    apply_promocode 11500 (some ⟨"SAVE10", PKind.percent, 10⟩) = (1150, 10350) :=
  apply_promocode_clamped 2 none (by decide)

end H2H

namespace H2H

/-- C3 counterexample: for the scenario-B input (two available capacity-4
units, party of five, all one gender) `allocate_units_for_booking` does not
fail at all — there is no gender logic and no `GenderSplitCapacityError`
anywhere in the code; it spreads the party across the two units and
succeeds. -/
theorem allocate_scenario_B_succeeds :
    allocPickIds (allocate_units_for_booking stScenB bookingScenB (some pkgScen)) =
      some [1, 2] ∧
    (allocSt (allocate_units_for_booking stScenB bookingScenB (some pkgScen))).map
        (fun s => s.allocations) = some [⟨11, 1, 0⟩, ⟨11, 2, 0⟩] := by
  decide

/-- C3 (amended): for a pool of exactly two available units of capacity 4 and
a party of 5 (regardless of gender composition, which the allocator never
reads), the allocation succeeds by spreading the party across the two units —
one `Allocation` row per unit, both units `OCCUPIED`, booking `CONFIRMED`;
the allocator has no gender-split failure mode and fails only when the
aggregate capacity of the eligible pool is insufficient. -/
theorem allocate_scenario_B_spreads :
    allocPickIds (allocate_units_for_booking stScenB bookingScenB (some pkgScen)) =
      some [1, 2] ∧
    (allocSt (allocate_units_for_booking stScenB bookingScenB (some pkgScen))).map
        (fun s => s.allocations) = some [⟨11, 1, 0⟩, ⟨11, 2, 0⟩] ∧
    (allocSt (allocate_units_for_booking stScenB bookingScenB (some pkgScen))).map
        (fun s => s.units.map fun u => u.status) =
      some [UStatus.occupied, UStatus.occupied] ∧
    ((allocSt (allocate_units_for_booking stScenB bookingScenB (some pkgScen))).bind
        (fun s => getBooking s 11)).map (fun b => b.status) = some BStatus.confirmed := by
  decide

/-! ## C6: gross-up inverse property (spec-modelled) -/

/-- `roundNearest` is within half a unit of its argument. -/
theorem roundNearest_sub_abs (q : ℚ) : |((roundNearest q : ℤ) : ℚ) - q| ≤ 1/2 := by
  rw [abs_le]
  constructor
  · have h := Int.lt_floor_add_one (q + 1/2)
    simp only [roundNearest]
    linarith
  · have h := Int.floor_le (q + 1/2)
    simp only [roundNearest]
    linarith

/-- C6: `gross_up(net, rate, gstRate)` solves
`gross = net / (1 - rate*(1+gstRate))` and returns rounded gross, fee and
tax-on-fee line items such that `net = gross - fee - gst_on_fee` within one
unit of rounding tolerance, and `rate = 0` returns the net unchanged.
(Modelled from the spec: the gross-up code itself is not under `src/`.) -/
theorem gross_up_inverse (net : ℕ) (rate gstRate : ℚ)
    (h0 : 0 ≤ rate) (h1 : 0 ≤ gstRate) (h2 : rate * (1 + gstRate) < 1) :
    |(net : ℚ) -
        (((gross_up net rate gstRate).1 : ℚ) - ((gross_up net rate gstRate).2.1 : ℚ) -
          ((gross_up net rate gstRate).2.2 : ℚ))| ≤ 1 ∧
    gross_up net 0 gstRate = ((net : ℤ), 0, 0) := by
  have hhalf : (⌊(1/2 : ℚ)⌋ : ℤ) = 0 := by norm_num
  constructor
  · have hrnn : 0 ≤ rate * (1 + gstRate) := mul_nonneg h0 (by linarith)
    have hden : 0 < 1 - rate * (1 + gstRate) := by linarith
    have e1 : (gross_up net rate gstRate).1 =
        roundNearest ((net : ℚ) / (1 - rate * (1 + gstRate))) := rfl
    have e2 : (gross_up net rate gstRate).2.1 =
        roundNearest (((gross_up net rate gstRate).1 : ℚ) * rate) := rfl
    have e3 : (gross_up net rate gstRate).2.2 =
        roundNearest (((gross_up net rate gstRate).1 : ℚ) * (rate * (1 + gstRate))) -
          (gross_up net rate gstRate).2.1 := rfl
    set E : ℚ := (net : ℚ) / (1 - rate * (1 + gstRate)) with hE
    set G : ℤ := (gross_up net rate gstRate).1 with hG
    set F : ℤ := (gross_up net rate gstRate).2.1 with hF
    set X : ℤ := (gross_up net rate gstRate).2.2 with hX
    have hnet : E * (1 - rate * (1 + gstRate)) = (net : ℚ) :=
      div_mul_cancel₀ _ (ne_of_gt hden)
    have hd0 : |(G : ℚ) - E| ≤ 1/2 := by rw [e1]; exact roundNearest_sub_abs E
    have hd1 : |((F + X : ℤ) : ℚ) - (G : ℚ) * (rate * (1 + gstRate))| ≤ 1/2 := by
      have hFX : F + X = roundNearest ((G : ℚ) * (rate * (1 + gstRate))) := by
        rw [e3]; ring
      rw [hFX]
      exact roundNearest_sub_abs _
    have key : (net : ℚ) - ((G : ℚ) - (F : ℚ) - (X : ℚ)) =
        (E - (G : ℚ)) * (1 - rate * (1 + gstRate)) +
          (((F + X : ℤ) : ℚ) - (G : ℚ) * (rate * (1 + gstRate))) := by
      push_cast
      rw [← hnet]
      ring
    rw [key]
    calc |(E - (G : ℚ)) * (1 - rate * (1 + gstRate)) +
            (((F + X : ℤ) : ℚ) - (G : ℚ) * (rate * (1 + gstRate)))|
        ≤ |(E - (G : ℚ)) * (1 - rate * (1 + gstRate))| +
            |((F + X : ℤ) : ℚ) - (G : ℚ) * (rate * (1 + gstRate))| := abs_add _ _
      _ = |E - (G : ℚ)| * (1 - rate * (1 + gstRate)) +
            |((F + X : ℤ) : ℚ) - (G : ℚ) * (rate * (1 + gstRate))| := by
            rw [abs_mul, abs_of_nonneg (le_of_lt hden)]
      _ ≤ (1/2) * (1 - rate * (1 + gstRate)) + 1/2 := by
            have h5 : |E - (G : ℚ)| ≤ 1/2 := by rw [abs_sub_comm]; exact hd0
            have h6 := mul_le_mul_of_nonneg_right h5 (le_of_lt hden)
            linarith
      _ ≤ 1 := by nlinarith
  · simp only [gross_up, zero_mul, mul_zero, sub_zero, div_one, zero_add, roundNearest]
    have hfn : ⌊(net : ℚ) + 1/2⌋ = (net : ℤ) := by
      rw [show ((net : ℚ)) = ((net : ℤ) : ℚ) from by push_cast; ring]
      rw [Int.floor_int_add, hhalf, add_zero]
    rw [hfn, hhalf]
    norm_num

end H2H

namespace H2H

/-! ## Structural lemmas about the allocator -/

theorem prefixNeeded_sublist (needed : ℕ) (l : List Unit) :
    List.Sublist (prefixNeeded needed l) l := by
  induction l generalizing needed with
  | nil => simp [prefixNeeded]
  | cons u rest ih =>
    simp only [prefixNeeded]
    split
    · exact (List.nil_sublist rest).cons₂ u
    · exact (ih _).cons₂ u

theorem clusterUnits_sublist (pool : List Unit) (k : ℕ × ℕ) :
    List.Sublist (clusterUnits pool k) pool :=
  List.filter_sublist pool

theorem pickCluster_eq (pool : List Unit) (needed : ℕ) (ks : List (ℕ × ℕ))
    (k : ℕ × ℕ) (picks : List Unit)
    (h : pickCluster pool needed ks = some (k, picks)) :
    picks = prefixNeeded needed (clusterUnits pool k) := by
  induction ks with
  | nil => simp [pickCluster] at h
  | cons k0 rest ih =>
    simp only [pickCluster] at h
    split at h
    · obtain ⟨rfl, rfl⟩ : k0 = k ∧ prefixNeeded needed (clusterUnits pool k0) = picks := by
        simpa using h
      rfl
    · exact ih h

theorem mem_poolOf {st : St} {b : Booking} {ev : ℕ} {f : List ℕ} {u : Unit}
    (h : u ∈ poolOf st b ev f) : u ∈ eligibleUnits st ev f := by
  simpa [poolOf] using (List.mem_insertionSort _).mp h

theorem mem_eligibleUnits {st : St} {ev : ℕ} {f : List ℕ} {u : Unit}
    (h : u ∈ eligibleUnits st ev f) :
    u ∈ st.units ∧ u.unitTypeId ∈ f ∧ u.status = UStatus.available ∧
      u.id ∉ (units_taken_for_event st ev).map (fun t => t.id) := by
  have := List.mem_filter.mp h
  refine ⟨this.1, ?_⟩
  have hb := this.2
  simp only [Bool.and_eq_true, decide_eq_true_eq] at hb
  exact ⟨hb.1.1, hb.1.2, hb.2⟩

/-- The picked units form a sublist of the ordered candidate pool. -/
theorem allocate_picks_sublist (st st' : St) (b : Booking) (pkg : Package)
    (picks : List Unit) (ev : ℕ) (hev : b.eventId = some ev)
    (hok : allocate_units_for_booking st b (some pkg) = .ok (st', picks)) :
    List.Sublist picks (poolOf st b ev (utFilterOf b (resolveAllowedIds st pkg))) := by
  unfold allocate_units_for_booking at hok
  rw [hev] at hok
  simp only at hok
  split at hok
  · exact absurd hok (by simp)
  · split at hok
    · exact absurd hok (by simp)
    · rename_i hcl
      split at hok
      · rename_i p t picks0 hpk
        split at hok
        · exact absurd hok (by simp)
        · split at hok
          · exact absurd hok (by simp)
          · simp only [Except.ok.injEq, Prod.mk.injEq] at hok
            obtain ⟨-, h2⟩ := hok
            subst h2
            have hpe := pickCluster_eq _ _ _ _ _ hpk
            rw [hpe]
            exact (prefixNeeded_sublist _ _).trans (clusterUnits_sublist _ _)
      · split at hok
        · exact absurd hok (by simp)
        · split at hok
          · exact absurd hok (by simp)
          · simp only [Except.ok.injEq, Prod.mk.injEq] at hok
            obtain ⟨-, h2⟩ := hok
            subst h2
            exact prefixNeeded_sublist _ _

end H2H

namespace H2H

/-- Shape of a successful allocation: the committed state appends one
`seats=0` allocation per picked unit, sets the picked units `OCCUPIED`, and
replaces the booking by a `CONFIRMED` copy (same id and event); nothing else
changes. -/
theorem allocate_ok_shape (st st' : St) (b : Booking) (pkg : Package)
    (picks : List Unit) (ev : ℕ) (hev : b.eventId = some ev)
    (hok : allocate_units_for_booking st b (some pkg) = .ok (st', picks)) :
    ∃ b' : Booking, b'.id = b.id ∧ b'.eventId = b.eventId ∧
      b'.status = BStatus.confirmed ∧
      st'.allocations = st.allocations ++ picks.map (fun u => Allocation.mk b.id u.id 0) ∧
      st'.units = st.units.map (fun u =>
        if u.id ∈ picks.map (fun v => v.id) then { u with status := UStatus.occupied } else u) ∧
      st'.bookings = st.bookings.map (fun x => if x.id = b.id then b' else x) ∧
      st'.orders = st.orders ∧ st'.unitTypes = st.unitTypes ∧ st'.events = st.events := by
  unfold allocate_units_for_booking at hok
  rw [hev] at hok
  simp only at hok
  split at hok
  · exact absurd hok (by simp)
  · split at hok
    · exact absurd hok (by simp)
    · split at hok
      · rename_i p t picks0 hpk
        split at hok
        · exact absurd hok (by simp)
        · rename_i u rest
          split at hok
          · exact absurd hok (by simp)
          · simp only [Except.ok.injEq, Prod.mk.injEq] at hok
            obtain ⟨h1, h2⟩ := hok
            subst h2
            exact ⟨(commitAllocation st b ev p t u (u :: rest)).2, rfl, rfl, rfl,
              by rw [← h1]; rfl, by rw [← h1]; rfl, by rw [← h1]; rfl,
              by rw [← h1]; rfl, by rw [← h1]; rfl, by rw [← h1]; rfl⟩
      · split at hok
        · exact absurd hok (by simp)
        · rename_i u rest hpre
          split at hok
          · exact absurd hok (by simp)
          · simp only [Except.ok.injEq, Prod.mk.injEq] at hok
            obtain ⟨h1, h2⟩ := hok
            subst h2
            exact ⟨(commitAllocation st b ev u.propertyId u.unitTypeId u (u :: rest)).2,
              rfl, rfl, rfl,
              by rw [← h1]; rfl, by rw [← h1]; rfl, by rw [← h1]; rfl,
              by rw [← h1]; rfl, by rw [← h1]; rfl, by rw [← h1]; rfl⟩

/-- C7 (amended): every failure of `allocate_units_for_booking` is a raised
`ValueError` carrying one of four fixed messages — missing event, missing
package context, the configuration failure ("no allowed unit types"), and
the capacity failure ("insufficient capacity").  There is no gender-split
failure mode, and configuration vs capacity failures are distinguishable
only by their message strings, not by a structured type. -/
theorem allocate_error_messages (st : St) (b : Booking) (pkg? : Option Package)
    (e : PyErr)
    (h : allocate_units_for_booking st b pkg? = .error e) :
    e = .valueError "Booking missing event" ∨
      e = .valueError "Package context missing" ∨
      e = .valueError "Package has no allowed unit types configured" ∨
      e = .valueError "Insufficient capacity for requested guests" := by
  unfold allocate_units_for_booking at h
  simp only at h
  split at h
  · have h' := Except.error.inj h
    subst h'
    tauto
  · split at h
    · have h' := Except.error.inj h
      subst h'
      tauto
    · split at h
      · have h' := Except.error.inj h
        subst h'
        tauto
      · split at h
        · have h' := Except.error.inj h
          subst h'
          tauto
        · split at h
          · split at h
            · have h' := Except.error.inj h
              subst h'
              tauto
            · split at h
              · have h' := Except.error.inj h
                subst h'
                tauto
              · exact absurd h (by simp)
          · split at h
            · have h' := Except.error.inj h
              subst h'
              tauto
            · split at h
              · have h' := Except.error.inj h
                subst h'
                tauto
              · exact absurd h (by simp)

/-- C7 witness: the theorem applied at a concrete failing input (a booking
with no event). -/
theorem allocate_error_messages_witness :
    PyErr.valueError "Booking missing event" = PyErr.valueError "Booking missing event" ∨
      PyErr.valueError "Booking missing event" = PyErr.valueError "Package context missing" ∨
      PyErr.valueError "Booking missing event" =
        PyErr.valueError "Package has no allowed unit types configured" ∨
      PyErr.valueError "Booking missing event" =
        PyErr.valueError "Insufficient capacity for requested guests" :=
  allocate_error_messages stScenB { booking0 with eventId := none } none
    (.valueError "Booking missing event") rfl

end H2H

namespace H2H

/-- C6 witness: the gross-up inverse property and the `rate = 0` identity at
`net = 100`, `rate = 2%`, `gstRate = 18%`. -/
theorem gross_up_inverse_witness :
    |((100 : ℕ) : ℚ) -
        (((gross_up 100 (2/100) (18/100)).1 : ℚ) - ((gross_up 100 (2/100) (18/100)).2.1 : ℚ) -
          ((gross_up 100 (2/100) (18/100)).2.2 : ℚ))| ≤ 1 ∧
    gross_up 100 0 (18/100) = ((100 : ℤ), 0, 0) :=
  gross_up_inverse 100 (2/100) (18/100) (by norm_num) (by norm_num) (by norm_num)

/-- A party of three (all one gender) for the C7 counterexample. -/
def bookingScenC : Booking :=
  { booking0 with
    id := 12
    guests := 3
    companions := [⟨some 30, "M"⟩, ⟨some 31, "M"⟩] }

/-- Two available capacity-2 units for the C7 counterexample. -/
def stScenC : St where
  units := [{ unit0 with id := 21, label := "S1", capacity := 2 },
            { unit0 with id := 22, label := "S2", capacity := 2 }]
  unitTypes := [⟨7, "DOME TENT"⟩]
  allocations := []
  bookings := [bookingScenC]
  orders := []
  events := [⟨1, 100, 103⟩]

/-- A package with an empty allowed-unit-type M2M and a name outside the
fallback map. -/
def pkgNoTypes : Package := { pkgScen with allowedUnitTypeIds := [], name := "deluxe" }

/-- C7 counterexample: at the canonical gender-split input (three guests of
one gender, two capacity-2 units: no single unit fits and the spec's policy
admits no single-gender split) the allocator *succeeds* — the gender-split
failure mode does not exist; and the configuration failure is a raised
`ValueError` distinguished only by its message string, not a structured
result. -/
theorem allocate_no_gender_split_error :
    allocPickIds (allocate_units_for_booking stScenC bookingScenC (some pkgScen)) =
      some [21, 22] ∧
    allocErrMsg (allocate_units_for_booking stScenC bookingScenC (some pkgNoTypes)) =
      some "Package has no allowed unit types configured" := by
  decide

/-- The booking pinned to property 1 for the C9 counterexample. -/
def bookingPinnedProp : Booking :=
  { booking0 with id := 13, guests := 2, propertyId := some 1 }

/-- A pool holding only a property-2 unit for the C9 counterexample. -/
def stPinnedProp : St where
  units := [{ unit0 with id := 31, propertyId := 2, propertyName := "Camp B", label := "B1" }]
  unitTypes := [⟨7, "DOME TENT"⟩]
  allocations := []
  bookings := [bookingPinnedProp]
  orders := []
  events := [⟨1, 100, 103⟩]

/-- C9 counterexample: a booking pinned to Property 1 is allocated a unit of
Property 2 when Property 1 has no eligible stock — the pinned Property is
only an ordering preference, not a hard constraint, and the booking's
`property_id` is silently overwritten from the picked unit. -/
theorem allocate_overrides_pinned_property :
    bookingPinnedProp.propertyId = some 1 ∧
    allocPickProps (allocate_units_for_booking stPinnedProp bookingPinnedProp (some pkgScen)) =
      some [2] ∧
    ((allocSt (allocate_units_for_booking stPinnedProp bookingPinnedProp (some pkgScen))).bind
        (fun s => getBooking s 13)).map (fun b => b.propertyId) = some (some 2) := by
  decide

/-- C9 (amended): a pinned UnitType that belongs to the package's allowed set
is a hard constraint — every allocated unit carries exactly that unit type.
(A pinned Property is only a preference; a pinned UnitType outside the
allowed set is ignored.) -/
theorem allocate_pinned_unit_type (st st' : St) (b : Booking) (pkg : Package)
    (picks : List Unit) (ev : ℕ) (ut : ℕ)
    (hev : b.eventId = some ev)
    (hut : b.unitTypeId = some ut)
    (hall : ut ∈ resolveAllowedIds st pkg)
    (hok : allocate_units_for_booking st b (some pkg) = .ok (st', picks)) :
    ∀ u ∈ picks, u.unitTypeId = ut := by
  intro u hu
  have hsub := allocate_picks_sublist st st' b pkg picks ev hev hok
  have hpool : u ∈ poolOf st b ev (utFilterOf b (resolveAllowedIds st pkg)) :=
    hsub.mem hu
  have helig := mem_eligibleUnits (mem_poolOf hpool)
  have hf : utFilterOf b (resolveAllowedIds st pkg) = [ut] := by
    simp [utFilterOf, pinnedUtOf, hut, hall]
  rw [hf] at helig
  simpa using helig.2.1

/-- C9 amended-claim witness: a concrete allocation with a pinned, allowed
unit type; the single picked unit carries it. -/
theorem allocate_pinned_unit_type_witness :
    ({ unit0 with id := 31, propertyId := 2, propertyName := "Camp B", label := "B1" } : Unit).unitTypeId = 7 :=
  allocate_pinned_unit_type stPinnedProp
    (match allocate_units_for_booking stPinnedProp
        { bookingPinnedProp with unitTypeId := some 7 } (some pkgScen) with
      | .ok (s, _) => s
      | .error _ => stPinnedProp)
    { bookingPinnedProp with unitTypeId := some 7 } pkgScen
    [{ unit0 with id := 31, propertyId := 2, propertyName := "Camp B", label := "B1" }]
    1 7 rfl rfl (by decide) rfl
    { unit0 with id := 31, propertyId := 2, propertyName := "Camp B", label := "B1" }
    (by decide)

end H2H


namespace H2H

/-! ## Webhook lemmas: order resolution is idempotent -/

theorem find?_map_replace {α : Type} (l : List α) (p : α → Bool) (r : α → Prop)
    [DecidablePred r] (a a' : α)
    (hfind : l.find? p = some a) (hra : r a) (hpa' : p a' = true) :
    (l.map (fun x => if r x then a' else x)).find? p = some a' := by
  induction l with
  | nil => simp at hfind
  | cons c t ih =>
    rw [List.find?_cons] at hfind
    cases hpc : p c with
    | true =>
      rw [hpc] at hfind
      simp only at hfind
      obtain rfl : c = a := by simpa using hfind
      simp only [List.map_cons, if_pos hra, List.find?_cons, hpa']
    | false =>
      rw [hpc] at hfind
      simp only at hfind
      by_cases hrc : r c
      · simp [List.find?_cons, if_pos hrc, hpa']
      · simp only [List.map_cons, if_neg hrc]
        rw [List.find?_cons, hpc]
        exact ih hfind

/-- Every row of `os'` shares its id and razorpay order id with a row of
`os` (what a mark-paid pass guarantees about the table it returns). -/
def Covers (os os' : List Order) : Prop :=
  ∀ y ∈ os', ∃ x ∈ os, y.id = x.id ∧ y.razorpayOrderId = x.razorpayOrderId

/-- Every row of `os'` shares its id with a row of `os` (what the
`reference_id` branch guarantees — it may rewrite `razorpay_order_id`). -/
def IdCovers (os os' : List Order) : Prop :=
  ∀ y ∈ os', ∃ x ∈ os, y.id = x.id

theorem Covers.toIdCovers {os os' : List Order} (h : Covers os os') : IdCovers os os' :=
  fun y hy => by obtain ⟨x, hx, h1, _⟩ := h y hy; exact ⟨x, hx, h1⟩

theorem covers_refl (os : List Order) : Covers os os :=
  fun y hy => ⟨y, hy, rfl, rfl⟩

theorem covers_of_map (os : List Order) (f : Order → Order) (o : Order) (ho : o ∈ os)
    (hf : ∀ x, f x = x ∨
      ((f x).id = o.id ∧ (f x).razorpayOrderId = o.razorpayOrderId)) :
    Covers os (os.map f) := by
  intro y hy
  obtain ⟨x, hx, hfx⟩ := List.mem_map.mp hy
  rcases hf x with h | ⟨h1, h2⟩
  · exact ⟨x, hx, by rw [← hfx, h], by rw [← hfx, h]⟩
  · exact ⟨o, ho, by rw [← hfx]; exact h1, by rw [← hfx]; exact h2⟩

theorem idcovers_of_map (os : List Order) (f : Order → Order) (o : Order) (ho : o ∈ os)
    (hf : ∀ x, f x = x ∨ (f x).id = o.id) :
    IdCovers os (os.map f) := by
  intro y hy
  obtain ⟨x, hx, hfx⟩ := List.mem_map.mp hy
  rcases hf x with h | h1
  · exact ⟨x, hx, by rw [← hfx, h]⟩
  · exact ⟨o, ho, by rw [← hfx]; exact h1⟩

theorem mark_paid_covers (os : List Order) (oid? pid? : Option String) :
    Covers os (mark_paid_by_order_id os oid? pid?).1 := by
  unfold mark_paid_by_order_id
  split
  · exact covers_refl os
  · split
    · exact covers_refl os
    · split
      · exact covers_refl os
      · rename_i o hfind
        split
        · exact covers_refl os
        · dsimp only
          refine covers_of_map os _ o (List.mem_of_find?_eq_some hfind) fun x => ?_
          by_cases hx : x.id = o.id
          · right
            rw [if_pos hx]
            exact ⟨rfl, rfl⟩
          · left
            rw [if_neg hx]

theorem mark_paid_fail_st (os : List Order) (oid? pid? : Option String)
    (h : (mark_paid_by_order_id os oid? pid?).2 = none) :
    mark_paid_by_order_id os oid? pid? = (os, none) := by
  unfold mark_paid_by_order_id at h ⊢
  split at h
  · rfl
  · rename_i oid
    split at h
    · rename_i he
      rw [if_pos he]
    · rename_i hne
      rw [if_neg hne]
      split at h
      · rfl
      · split at h
        · simp at h
        · simp at h

end H2H

namespace H2H

theorem mark_paid_success_idem (os os' : List Order) (oid? pid? : Option String) (i : ℕ)
    (h : mark_paid_by_order_id os oid? pid? = (os', some i)) :
    mark_paid_by_order_id os' oid? pid? = (os', some i) := by
  unfold mark_paid_by_order_id at h ⊢
  split at h
  · simp at h
  · rename_i oid
    split at h
    · simp at h
    · rename_i hne
      rw [if_neg hne]
      split at h
      · simp at h
      · rename_i o hfind
        have hpo : o.razorpayOrderId = oid := by
          simpa using List.find?_some hfind
        split at h
        · rename_i hpaid
          obtain ⟨rfl, rfl⟩ : os = os' ∧ o.id = i := by
            constructor
            · exact congrArg Prod.fst h
            · simpa using congrArg Prod.snd h
          rw [hfind]
          simp [hpaid]
        · rename_i hpaid
          simp only [Prod.mk.injEq] at h
          obtain ⟨hmap, hi⟩ := h
          obtain rfl : o.id = i := by simpa using hi
          have hfind' := find?_map_replace os (fun x => x.razorpayOrderId = oid)
            (fun x => x.id = o.id) o
            ({ o with
               paid := true
               razorpayPaymentId := setIfTruthy pid? o.razorpayPaymentId }) hfind
            rfl (by simpa using hpo)
          rw [← hmap, hfind']
          simp

theorem mark_paid_fail_propagate (os os' : List Order) (oid? pid? pid?' : Option String)
    (h : mark_paid_by_order_id os oid? pid? = (os, none)) (hcov : Covers os os') :
    mark_paid_by_order_id os' oid? pid?' = (os', none) := by
  unfold mark_paid_by_order_id at h ⊢
  split at h
  · rfl
  · rename_i oid
    split at h
    · rename_i he
      rw [if_pos he]
    · rename_i hne
      rw [if_neg hne]
      split at h
      · rename_i hnone
        have hall := List.find?_eq_none.mp hnone
        have hn : os'.find? (fun x => x.razorpayOrderId = oid) = none := by
          rw [List.find?_eq_none]
          intro y hy
          obtain ⟨x, hx, _, hrzp⟩ := hcov y hy
          have := hall x hx
          simp only [decide_eq_true_eq] at this ⊢
          rw [hrzp]
          exact this
        rw [hn]
      · split at h
        · simp at h
        · exfalso
          have := congrArg Prod.snd h
          simp at this

end H2H

namespace H2H

theorem refMark_fail_st (os : List Order) (ref? pl? pid? : Option String)
    (h : (refMark os ref? pl? pid?).2 = none) :
    refMark os ref? pl? pid? = (os, none) := by
  unfold refMark at h ⊢
  split at h
  · rfl
  · split at h
    · rfl
    · split at h
      · rfl
      · split at h
        · simp at h
        · simp at h

theorem refMark_idcovers (os : List Order) (ref? pl? pid? : Option String) :
    IdCovers os (refMark os ref? pl? pid?).1 := by
  unfold refMark
  split
  · exact (covers_refl os).toIdCovers
  · split
    · exact (covers_refl os).toIdCovers
    · split
      · exact (covers_refl os).toIdCovers
      · rename_i o hfind
        split
        · exact (covers_refl os).toIdCovers
        · dsimp only
          refine idcovers_of_map os _ o (List.mem_of_find?_eq_some hfind) fun x => ?_
          by_cases hx : x.id = o.id
          · right
            rw [if_pos hx]
          · left
            rw [if_neg hx]

theorem refMark_success_idem (os os' : List Order) (ref? pl? pid? : Option String) (i : ℕ)
    (h : refMark os ref? pl? pid? = (os', some i)) :
    refMark os' ref? pl? pid? = (os', some i) := by
  unfold refMark at h ⊢
  split at h
  · simp at h
  · rename_i ref
    split at h
    · simp at h
    · rename_i lid hparse
      split at h
      · simp at h
      · rename_i o hfind
        have hpo : o.id = lid := by
          simpa using List.find?_some hfind
        split at h
        · rename_i hpaid
          obtain ⟨rfl, rfl⟩ : os = os' ∧ o.id = i := by
            constructor
            · exact congrArg Prod.fst h
            · simpa using congrArg Prod.snd h
          rw [hfind]
          simp [hpaid]
        · rename_i hpaid
          simp only [Prod.mk.injEq] at h
          obtain ⟨hmap, hi⟩ := h
          obtain rfl : o.id = i := by simpa using hi
          have hfind' := find?_map_replace os (fun x => x.id = lid)
            (fun x => x.id = o.id) o
            ({ o with
               paid := true
               razorpayPaymentId := setIfTruthy pid? o.razorpayPaymentId
               razorpayOrderId := refNewRzp pl? o }) hfind
            rfl (by simpa using hpo)
          rw [← hmap, hfind']
          simp

theorem refMark_fail_propagate (os os' : List Order) (ref? pl? pl?' pid? pid?' : Option String)
    (h : refMark os ref? pl? pid? = (os, none)) (hcov : IdCovers os os') :
    refMark os' ref? pl?' pid?' = (os', none) := by
  unfold refMark at h ⊢
  split at h
  · rfl
  · rename_i ref
    split at h
    · rfl
    · rename_i lid hparse
      split at h
      · rename_i hnone
        have hall := List.find?_eq_none.mp hnone
        have hn : os'.find? (fun x => x.id = lid) = none := by
          rw [List.find?_eq_none]
          intro y hy
          obtain ⟨x, hx, hid⟩ := hcov y hy
          have := hall x hx
          simp only [decide_eq_true_eq] at this ⊢
          rw [hid]
          exact this
        rw [hn]
      · split at h
        · simp at h
        · exfalso
          have := congrArg Prod.snd h
          simp at this

end H2H

namespace H2H

theorem mark_paid_covers_of (os os1 : List Order) (oid? pid? : Option String)
    (m : Option ℕ) (h : mark_paid_by_order_id os oid? pid? = (os1, m)) :
    Covers os os1 := by
  have := mark_paid_covers os oid? pid?
  rw [h] at this
  exact this

/-- Resolving-and-marking the same notification a second time is a no-op on
the order table and returns the same match. -/
theorem resolveOrders_idem (os : List Order) (n : Notif) :
    resolveOrders (resolveOrders os n).1 n = resolveOrders os n := by
  cases n with
  | otherEvent s => rfl
  | paymentCaptured oid pid =>
    simp only [resolveOrders]
    cases hm : (mark_paid_by_order_id os oid pid).2 with
    | none =>
      have hst := mark_paid_fail_st os oid pid hm
      rw [hst]
      simpa using hst
    | some i =>
      have h' : mark_paid_by_order_id os oid pid = ((mark_paid_by_order_id os oid pid).1, some i) :=
        Prod.ext rfl hm
      rw [h']
      simpa using mark_paid_success_idem os _ oid pid i h'
  | paymentLinkPaid ref pl pay payId notes =>
    simp only [resolveOrders]
    cases hm1 : (refMark os ref pl payId).2 with
    | some i =>
      have h1' : refMark os ref pl payId = ((refMark os ref pl payId).1, some i) :=
        Prod.ext rfl hm1
      rw [h1']
      simp only
      rw [refMark_success_idem os _ ref pl payId i h1']
    | none =>
      have h1st := refMark_fail_st os ref pl payId hm1
      rw [h1st]
      simp only
      cases hm2 : (mark_paid_by_order_id os pay payId).2 with
      | some i =>
        have h2' : mark_paid_by_order_id os pay payId =
            ((mark_paid_by_order_id os pay payId).1, some i) :=
          Prod.ext rfl hm2
        have hcov2 : Covers os (mark_paid_by_order_id os pay payId).1 :=
          mark_paid_covers os pay payId
        rw [h2']
        simp only
        rw [refMark_fail_propagate os _ ref pl pl payId payId h1st hcov2.toIdCovers]
        simp only
        rw [mark_paid_success_idem os _ pay payId i h2']
      | none =>
        have h2st := mark_paid_fail_st os pay payId hm2
        rw [h2st]
        simp only
        cases hm3 : (mark_paid_by_order_id os pl payId).2 with
        | some i =>
          have h3' : mark_paid_by_order_id os pl payId =
              ((mark_paid_by_order_id os pl payId).1, some i) :=
            Prod.ext rfl hm3
          have hcov3 : Covers os (mark_paid_by_order_id os pl payId).1 :=
            mark_paid_covers os pl payId
          rw [h3']
          simp only
          rw [refMark_fail_propagate os _ ref pl pl payId payId h1st hcov3.toIdCovers]
          simp only
          rw [mark_paid_fail_propagate os _ pay payId payId h2st hcov3]
          simp only
          rw [mark_paid_success_idem os _ pl payId i h3']
        | none =>
          have h3st := mark_paid_fail_st os pl payId hm3
          rw [h3st]
          simp only
          cases notes with
          | none =>
            simp only
            rw [h1st]
            simp only
            rw [h2st]
            simp only
            rw [h3st]
          | some nv =>
            simp only
            by_cases hnv : nv = ""
            · rw [if_pos hnv]
              simp only
              rw [h1st]
              simp only
              rw [h2st]
              simp only
              rw [h3st]
              simp [hnv]
            · rw [if_neg hnv]
              cases hm4 : (mark_paid_by_order_id os (some nv) payId).2 with
              | some i =>
                have h4' : mark_paid_by_order_id os (some nv) payId =
                    ((mark_paid_by_order_id os (some nv) payId).1, some i) :=
                  Prod.ext rfl hm4
                have hcov4 : Covers os (mark_paid_by_order_id os (some nv) payId).1 :=
                  mark_paid_covers os (some nv) payId
                rw [h4']
                simp only
                rw [refMark_fail_propagate os _ ref pl pl payId payId h1st hcov4.toIdCovers]
                simp only
                rw [mark_paid_fail_propagate os _ pay payId payId h2st hcov4]
                simp only
                rw [mark_paid_fail_propagate os _ pl payId payId h3st hcov4]
                simp only
                rw [if_neg hnv]
                rw [mark_paid_success_idem os _ (some nv) payId i h4']
              | none =>
                have h4st := mark_paid_fail_st os (some nv) payId hm4
                rw [h4st]
                simp only
                rw [h1st]
                simp only
                rw [h2st]
                simp only
                rw [h3st]
                simp only
                rw [if_neg hnv, h4st]

end H2H

namespace H2H

/-! ## Webhook lemmas: payment side effects -/

theorem ensurePricing_booking (st : St) (pkg : Package) (b : Booking) :
    (ensurePricing st pkg b).2.id = b.id ∧
    (ensurePricing st pkg b).2.status = b.status ∧
    (ensurePricing st pkg b).2.eventId = b.eventId ∧
    (ensurePricing st pkg b).2.pricingTotal.isSome = true := by
  cases hp : b.pricingTotal <;> simp [ensurePricing, hp]

theorem ensurePricing_preserves (st : St) (pkg : Package) (b : Booking) :
    (ensurePricing st pkg b).1.units = st.units ∧
    (ensurePricing st pkg b).1.allocations = st.allocations ∧
    (ensurePricing st pkg b).1.orders = st.orders ∧
    (ensurePricing st pkg b).1.unitTypes = st.unitTypes ∧
    (ensurePricing st pkg b).1.events = st.events := by
  cases hp : b.pricingTotal <;> simp [ensurePricing, hp]

theorem ensurePricing_noop (st : St) (pkg : Package) (b : Booking)
    (h : b.pricingTotal.isSome = true) : ensurePricing st pkg b = (st, b) := by
  unfold ensurePricing
  cases hp : b.pricingTotal with
  | none => rw [hp] at h; simp at h
  | some t => rfl

theorem ensurePricing_getBooking (st : St) (pkg : Package) (b : Booking) (bid : ℕ)
    (hid : b.id = bid) (hgb : getBooking st bid = some b) :
    getBooking (ensurePricing st pkg b).1 bid = some (ensurePricing st pkg b).2 := by
  unfold ensurePricing
  cases hp : b.pricingTotal with
  | some t => simpa using hgb
  | none =>
    simp only [getBooking] at hgb ⊢
    exact find?_map_replace st.bookings (fun x => x.id = bid) (fun x => x.id = b.id)
      b _ hgb rfl (by simp [hid])

theorem allocate_ok_event (st st' : St) (b : Booking) (pkg? : Option Package)
    (picks : List Unit)
    (hok : allocate_units_for_booking st b pkg? = .ok (st', picks)) :
    ∃ ev pkg, b.eventId = some ev ∧ pkg? = some pkg := by
  unfold allocate_units_for_booking at hok
  split at hok
  · simp at hok
  · rename_i ev heq
    split at hok
    · simp at hok
    · rename_i pkg
      exact ⟨ev, pkg, heq, rfl⟩

theorem allocate_ok_confirmed (st st' : St) (b : Booking) (pkg : Package)
    (picks : List Unit) (ev : ℕ) (bid : ℕ)
    (hev : b.eventId = some ev) (hid : b.id = bid)
    (hgb : getBooking st bid = some b)
    (hok : allocate_units_for_booking st b (some pkg) = .ok (st', picks)) :
    ∃ b', getBooking st' bid = some b' ∧ b'.status = BStatus.confirmed ∧
      st'.orders = st.orders := by
  obtain ⟨b', hbid, hbev, hbst, -, -, hbook, horders, -, -⟩ :=
    allocate_ok_shape st st' b pkg picks ev hev hok
  refine ⟨b', ?_, hbst, horders⟩
  simp only [getBooking] at hgb ⊢
  rw [hbook]
  exact find?_map_replace st.bookings (fun x => x.id = bid) (fun x => x.id = b.id)
    b b' hgb rfl (by simp [hbid, hid])

theorem paymentSideEffects_orders (st : St) (o : Order) :
    (paymentSideEffects st o).1.orders = st.orders := by
  simp only [paymentSideEffects]
  split
  · rfl
  · split
    · rfl
    · rename_i b hgb
      split
      · rfl
      · split
        · rename_i st2 res halloc
          obtain ⟨ev, pkg, hev, hpkg⟩ := allocate_ok_event _ _ _ _ _ halloc
          obtain rfl : pkg = o.package := by simpa using hpkg.symm
          obtain ⟨-, -, -, -, -, -, -, horders, -, -⟩ :=
            allocate_ok_shape _ st2 _ o.package res ev hev halloc
          rw [horders]
          exact (ensurePricing_preserves st o.package b).2.2.1
        · rename_i e halloc
          exact (ensurePricing_preserves st o.package b).2.2.1

end H2H

namespace H2H

/-- Running the payment side effects twice changes the state only once: the
second pass hits the `CONFIRMED` guard (successful allocation) or repeats
the identical failure (rolled-back allocation). -/
theorem paymentSideEffects_idem (st : St) (o : Order) :
    paymentSideEffects (paymentSideEffects st o).1 o =
      ((paymentSideEffects st o).1, (paymentSideEffects (paymentSideEffects st o).1 o).2) := by
  cases hb : o.bookingId with
  | none => simp [paymentSideEffects, hb]
  | some bid =>
    cases hgb : getBooking st bid with
    | none => simp [paymentSideEffects, hb, hgb]
    | some b =>
      by_cases hconf : b.status = BStatus.confirmed
      · simp [paymentSideEffects, hb, hgb, hconf]
      · have hid : b.id = bid := by
          have := List.find?_some hgb
          simpa using this
        have hgb1 : getBooking (ensurePricing st o.package b).1 bid =
            some (ensurePricing st o.package b).2 :=
          ensurePricing_getBooking st o.package b bid hid hgb
        have hbfacts := ensurePricing_booking st o.package b
        cases halloc : allocate_units_for_booking (ensurePricing st o.package b).1
            (ensurePricing st o.package b).2 (some o.package) with
        | ok r =>
          rcases r with ⟨st2, picks⟩
          obtain ⟨ev, pkg, hev, hpkg⟩ := allocate_ok_event _ _ _ _ _ halloc
          obtain rfl : pkg = o.package := by simpa using hpkg.symm
          have hid2 : (ensurePricing st o.package b).2.id = bid := by
            rw [hbfacts.1]; exact hid
          obtain ⟨b', hgb2, hconf2, -⟩ :=
            allocate_ok_confirmed _ st2 _ o.package picks ev bid hev hid2 hgb1 halloc
          have h1 : paymentSideEffects st o =
              (st2, " | allocated_units=" ++
                String.intercalate "," (picks.map fun u => u.label)) := by
            simp only [paymentSideEffects, hb, hgb]
            rw [if_neg hconf]
            simp only [halloc]
          rw [h1]
          simp only [paymentSideEffects, hb, hgb2]
          rw [if_pos hconf2]
        | error e =>
          have h1 : paymentSideEffects st o =
              ((ensurePricing st o.package b).1, " | allocate_err: " ++ e.msg) := by
            simp only [paymentSideEffects, hb, hgb]
            rw [if_neg hconf]
            simp only [halloc]
          rw [h1]
          have hconf1 : ¬ (ensurePricing st o.package b).2.status = BStatus.confirmed := by
            rw [hbfacts.2.1]; exact hconf
          have hnoop : ensurePricing (ensurePricing st o.package b).1 o.package
              (ensurePricing st o.package b).2 =
              ((ensurePricing st o.package b).1, (ensurePricing st o.package b).2) :=
            ensurePricing_noop _ _ _ hbfacts.2.2.2
          simp only [paymentSideEffects, hb, hgb1]
          rw [if_neg hconf1]
          simp only [hnoop, halloc]

end H2H

namespace H2H

/-- C2: processing an identical payment notification a second time leaves the
database state unchanged: marking an `Order` paid is a no-op when it is
already paid, and allocation is skipped when the linked `Booking` is already
`CONFIRMED` (or repeats the identical rolled-back failure), so there is
exactly one CONFIRMED transition and exactly one set of `Allocation` rows. -/
theorem razorpay_webhook_idem (st : St) (n : Notif) :
    (razorpay_webhook (razorpay_webhook st n).st n).st = (razorpay_webhook st n).st := by
  have hidem := resolveOrders_idem st.orders n
  simp only [razorpay_webhook]
  cases hr : (resolveOrders st.orders n).2 with
  | none =>
    rw [hidem]
    simp [hr]
  | some i =>
    simp only [hr]
    cases hf : List.find? (fun o => decide (o.id = i)) (resolveOrders st.orders n).1 with
    | none =>
      simp only [hf]
      rw [hidem]
      simp [hr, hf]
    | some o =>
      by_cases hp : o.paid = true
      · simp only [hf, if_pos hp]
        rw [paymentSideEffects_orders]
        simp only
        rw [hidem]
        simp only [hr, hf, if_pos hp]
        set st1 : St :=
          { units := st.units, unitTypes := st.unitTypes, allocations := st.allocations,
            bookings := st.bookings, orders := (resolveOrders st.orders n).1,
            events := st.events } with hst1
        have horders := paymentSideEffects_orders st1 o
        have h2 : (resolveOrders st.orders n).1 = (paymentSideEffects st1 o).1.orders := by
          rw [horders, hst1]
        rw [h2]
        have hfst : (paymentSideEffects (paymentSideEffects st1 o).1 o).1 =
            (paymentSideEffects st1 o).1 := by
          rw [paymentSideEffects_idem st1 o]
        exact hfst
      · simp only [hf, if_neg hp]
        rw [hidem]
        simp [hr, hf, hp]

end H2H

namespace H2H

/-! ## Webhook lemmas: the paid flag is never rolled back -/

/-- Every row of `os'` matches a row of `os` by id without ever clearing a
set `paid` flag. -/
def PaidMono (os os' : List Order) : Prop :=
  ∀ y ∈ os', ∃ x ∈ os, y.id = x.id ∧ (x.paid = true → y.paid = true)

theorem paidMono_refl (os : List Order) : PaidMono os os :=
  fun y hy => ⟨y, hy, rfl, fun h => h⟩

theorem PaidMono.trans {os1 os2 os3 : List Order}
    (h12 : PaidMono os1 os2) (h23 : PaidMono os2 os3) : PaidMono os1 os3 := by
  intro y hy
  obtain ⟨x2, hx2, hid2, hp2⟩ := h23 y hy
  obtain ⟨x1, hx1, hid1, hp1⟩ := h12 x2 hx2
  exact ⟨x1, hx1, hid2.trans hid1, fun h => hp2 (hp1 h)⟩

theorem paidMono_of_map (os : List Order) (f : Order → Order) (o : Order) (ho : o ∈ os)
    (hf : ∀ x, f x = x ∨ ((f x).id = o.id ∧ (f x).paid = true)) :
    PaidMono os (os.map f) := by
  intro y hy
  obtain ⟨x, hx, hfx⟩ := List.mem_map.mp hy
  rcases hf x with h | ⟨h1, h2⟩
  · exact ⟨x, hx, by rw [← hfx, h], by rw [← hfx, h]; exact fun hh => hh⟩
  · exact ⟨o, ho, by rw [← hfx]; exact h1, fun _ => by rw [← hfx]; exact h2⟩

theorem mark_paid_paidMono (os : List Order) (oid? pid? : Option String) :
    PaidMono os (mark_paid_by_order_id os oid? pid?).1 := by
  unfold mark_paid_by_order_id
  split
  · exact paidMono_refl os
  · split
    · exact paidMono_refl os
    · split
      · exact paidMono_refl os
      · rename_i o hfind
        split
        · exact paidMono_refl os
        · dsimp only
          refine paidMono_of_map os _ o (List.mem_of_find?_eq_some hfind) fun x => ?_
          by_cases hx : x.id = o.id
          · right
            rw [if_pos hx]
            exact ⟨rfl, rfl⟩
          · left
            rw [if_neg hx]

theorem refMark_paidMono (os : List Order) (ref? pl? pid? : Option String) :
    PaidMono os (refMark os ref? pl? pid?).1 := by
  unfold refMark
  split
  · exact paidMono_refl os
  · split
    · exact paidMono_refl os
    · split
      · exact paidMono_refl os
      · rename_i o hfind
        split
        · exact paidMono_refl os
        · dsimp only
          refine paidMono_of_map os _ o (List.mem_of_find?_eq_some hfind) fun x => ?_
          by_cases hx : x.id = o.id
          · right
            rw [if_pos hx]
            exact ⟨rfl, rfl⟩
          · left
            rw [if_neg hx]

theorem resolveOrders_paidMono (os : List Order) (n : Notif) :
    PaidMono os (resolveOrders os n).1 := by
  cases n with
  | otherEvent s => exact paidMono_refl os
  | paymentCaptured oid pid => exact mark_paid_paidMono os oid pid
  | paymentLinkPaid ref pl pay payId notes =>
    have h1 := refMark_paidMono os ref pl payId
    have h2 := (mark_paid_paidMono (refMark os ref pl payId).1 pay payId)
    have h12 := h1.trans h2
    have h3 := mark_paid_paidMono (mark_paid_by_order_id (refMark os ref pl payId).1 pay payId).1 pl payId
    have h123 := h12.trans h3
    simp only [resolveOrders]
    split
    · exact h1
    · split
      · exact h12
      · split
        · exact h123
        · split
          · rename_i nv
            split
            · exact h123
            · exact h123.trans (mark_paid_paidMono _ (some nv) payId)
          · exact h123

theorem webhook_orders (st : St) (n : Notif) :
    (razorpay_webhook st n).st.orders = (resolveOrders st.orders n).1 := by
  simp only [razorpay_webhook]
  cases hr : (resolveOrders st.orders n).2 with
  | none => simp
  | some i =>
    simp only
    cases hf : List.find? (fun o => decide (o.id = i)) (resolveOrders st.orders n).1 with
    | none => simp
    | some o =>
      by_cases hp : o.paid = true
      · simp only [hf, if_pos hp]
        rw [paymentSideEffects_orders]
      · simp [hf, hp]

end H2H

namespace H2H

/-- A state for the C8 witness: one unpaid-pricing booking with no event. -/
def stC8 : St where
  units := []
  unitTypes := []
  allocations := []
  bookings := [{ booking0 with eventId := none, pricingTotal := some 100 }]
  orders := []
  events := []

/-- An order linked to the C8 witness booking. -/
def orderC8 : Order where
  id := 5
  razorpayOrderId := "order_X"
  razorpayPaymentId := none
  paid := true
  bookingId := some 11
  package := pkgScen

/-- C8: when payment side effects fail during webhook processing of an
authentic notification, (i) the webhook still acknowledges with 200 OK in
every case, (ii) the already-committed `paid` flags on orders are never
rolled back (every resulting order row stems from an input row by id and
keeps `paid = true` if the input row had it), and (iii) an allocation
failure is caught: `paymentSideEffects` returns the pre-allocation state
together with the `" | allocate_err: "` log suffix instead of propagating
the error. -/
theorem razorpay_webhook_exception_safe :
    (∀ (st : St) (n : Notif), (razorpay_webhook st n).response = Resp.ok) ∧
    (∀ (st : St) (n : Notif), PaidMono st.orders (razorpay_webhook st n).st.orders) ∧
    (∀ (st : St) (o : Order) (bid : ℕ) (b : Booking) (e : PyErr),
      o.bookingId = some bid → getBooking st bid = some b →
      b.status ≠ BStatus.confirmed →
      allocate_units_for_booking (ensurePricing st o.package b).1
        (ensurePricing st o.package b).2 (some o.package) = Except.error e →
      paymentSideEffects st o =
        ((ensurePricing st o.package b).1, " | allocate_err: " ++ e.msg)) := by
  refine ⟨?_, ?_, ?_⟩
  · intro st n
    simp only [razorpay_webhook]
  · intro st n
    rw [webhook_orders]
    exact resolveOrders_paidMono st.orders n
  · intro st o bid b e hbid hgb hconf halloc
    simp only [paymentSideEffects, hbid, hgb, if_neg hconf, halloc]

/-- C8 witness: a concrete webhook state where the linked booking has no
event, so auto-allocation raises; the error is recorded, not propagated. -/
theorem razorpay_webhook_exception_safe_witness :
    paymentSideEffects stC8 orderC8 =
      ((ensurePricing stC8 orderC8.package
          { booking0 with eventId := none, pricingTotal := some 100 }).1,
        " | allocate_err: Booking missing event") := by
  refine razorpay_webhook_exception_safe.2.2 stC8 orderC8 11
    { booking0 with eventId := none, pricingTotal := some 100 }
    (PyErr.valueError "Booking missing event") rfl (by decide) (by decide) rfl

end H2H

namespace H2H

/-! ## Capacity invariant (C1) and whole-unit consumption (C10) -/

/-- Does allocation row `a` count against event `ev`: its booking exists and
is `PENDING_PAYMENT`/`CONFIRMED` on that event (the body of the `Exists`
annotation in `_units_taken_for_event`). -/
def allocHolds (st : St) (ev : ℕ) (a : Allocation) : Bool :=
  match getBooking st a.bookingId with
  | some b => bookingHolds b ev
  | none => false

/-- The seats load a unit carries for one event: the `seats_used` sum over
its counted allocation rows. -/
def eventLoad (st : St) (ev : ℕ) (u : Unit) : ℕ :=
  ((st.allocations.filter fun a => a.unitId = u.id && allocHolds st ev a).map
    (seats_used u)).sum

/-- The spec's §4.3 invariant, with `seats` read through `seats_used` (a
stored 0 means the whole unit): no unit is loaded beyond its capacity
(`capacity or 1`) for any event. -/
def CapacityInvariant (st : St) : Prop :=
  ∀ (ev : ℕ), ∀ u ∈ st.units, eventLoad st ev u ≤ capOr1 u.capacity

/-- No unit is shared: two allocation rows on the same unit that both count
for event `ev` belong to the same booking. -/
def NoSharing (st : St) (ev : ℕ) : Prop :=
  ∀ a1 ∈ st.allocations, ∀ a2 ∈ st.allocations,
    allocHolds st ev a1 = true → allocHolds st ev a2 = true →
    a1.unitId = a2.unitId → a1.bookingId = a2.bookingId

theorem unitTaken_eq (st : St) (ev : ℕ) (u : Unit) :
    unitTaken st ev u = st.allocations.any fun a => a.unitId = u.id && allocHolds st ev a :=
  rfl

theorem find?_map_idkeep (l : List Booking) (g : Booking → Booking)
    (hg : ∀ x, (g x).id = x.id) (j : ℕ) :
    (l.map g).find? (fun x => x.id = j) = (l.find? (fun x => x.id = j)).map g := by
  induction l with
  | nil => rfl
  | cons x rest ih =>
    by_cases hx : x.id = j
    · rw [List.map_cons,
        List.find?_cons_of_pos _ (by simp [hg, hx]),
        List.find?_cons_of_pos _ (by simp [hx])]
      rfl
    · rw [List.map_cons,
        List.find?_cons_of_neg _ (by simp [hg, hx]),
        List.find?_cons_of_neg _ (by simp [hx]), ih]

set_option linter.unnecessarySeqFocus false in
theorem getBooking_commit (st st' : St) (b b' : Booking) (hbid : b'.id = b.id)
    (hbooks : st'.bookings = st.bookings.map fun x => if x.id = b.id then b' else x)
    (j : ℕ) :
    getBooking st' j = (getBooking st j).map (fun x => if x.id = b.id then b' else x) := by
  unfold getBooking
  rw [hbooks]
  exact find?_map_idkeep st.bookings _ (fun x => by split <;> simp_all) j

theorem allocHolds_commit (st st' : St) (b b' : Booking)
    (hbid : b'.id = b.id) (hbev : b'.eventId = b.eventId)
    (hbconf : b'.status = BStatus.confirmed)
    (hbst : b.status = BStatus.pendingPayment ∨ b.status = BStatus.confirmed)
    (hgb : getBooking st b.id = some b)
    (hbooks : st'.bookings = st.bookings.map fun x => if x.id = b.id then b' else x)
    (ev : ℕ) (a : Allocation) :
    allocHolds st' ev a = allocHolds st ev a := by
  unfold allocHolds
  rw [getBooking_commit st st' b b' hbid hbooks]
  cases hx : getBooking st a.bookingId with
  | none => rfl
  | some x =>
    simp only [Option.map_some']
    by_cases hxb : x.id = b.id
    · have hxj : x.id = a.bookingId := by
        have hx' := hx
        unfold getBooking at hx'
        simpa using List.find?_some hx'
      have hj : a.bookingId = b.id := by rw [← hxj, hxb]
      rw [hj, hgb] at hx
      obtain rfl : b = x := by injection hx
      rw [if_pos hxb]
      unfold bookingHolds
      rw [hbev, hbconf]
      rcases hbst with h | h <;> simp [h]
    · rw [if_neg hxb]

theorem not_taken_no_old (st : St) (ev : ℕ) (u : Unit) (hu : u ∈ st.units)
    (hnot : u.id ∉ (units_taken_for_event st ev).map fun t => t.id) :
    ∀ a ∈ st.allocations, ¬(a.unitId = u.id ∧ allocHolds st ev a = true) := by
  intro a ha hcontra
  have htk : unitTaken st ev u = true := by
    rw [unitTaken_eq]
    exact List.any_eq_true.mpr ⟨a, ha, by simp [hcontra.1, hcontra.2]⟩
  exact hnot (List.mem_map.mpr
    ⟨u, List.mem_filter.mpr ⟨hu, htk⟩, rfl⟩)

theorem allocate_picks_id_nodup (st st' : St) (b : Booking) (pkg : Package)
    (picks : List Unit) (ev : ℕ) (hev : b.eventId = some ev)
    (hnd : (st.units.map fun u => u.id).Nodup)
    (hok : allocate_units_for_booking st b (some pkg) = .ok (st', picks)) :
    (picks.map fun v => v.id).Nodup := by
  have hsub := allocate_picks_sublist st st' b pkg picks ev hev hok
  have hel : ((eligibleUnits st ev (utFilterOf b (resolveAllowedIds st pkg))).map
      fun v => v.id).Nodup :=
    ((List.filter_sublist st.units).map _).nodup hnd
  have hpool : ((poolOf st b ev (utFilterOf b (resolveAllowedIds st pkg))).map
      fun v => v.id).Nodup := by
    have hperm := List.perm_insertionSort
      (fun u v => poolLE b u v = true) (eligibleUnits st ev (utFilterOf b (resolveAllowedIds st pkg)))
    exact ((hperm.map _).nodup_iff).mpr hel
  exact (hsub.map _).nodup hpool

end H2H

namespace H2H

theorem length_filter_id_le_one (l : List Unit) (i : ℕ)
    (hnd : (l.map fun v => v.id).Nodup) :
    (l.filter fun v => v.id = i).length ≤ 1 := by
  induction l with
  | nil => simp
  | cons v rest ih =>
    simp only [List.map_cons, List.nodup_cons] at hnd
    by_cases hv : v.id = i
    · have hrest : rest.filter (fun w => decide (w.id = i)) = [] := by
        rw [List.filter_eq_nil_iff]
        intro w hw
        simp only [decide_eq_true_eq]
        intro hwi
        exact hnd.1 (List.mem_map.mpr ⟨w, hw, by rw [hwi, hv]⟩)
      rw [List.filter_cons_of_pos (by simp [hv]), hrest]
      simp
    · rw [List.filter_cons_of_neg (by simp [hv])]
      exact ih hnd.2

theorem new_rows_sum_le (bidv : ℕ) (u : Unit) (picks : List Unit)
    (hnd : (picks.map fun v => v.id).Nodup) (q : Allocation → Bool) :
    ((((picks.map fun v => Allocation.mk bidv v.id 0).filter
        (fun a => a.unitId = u.id && q a)).map (seats_used u)).sum)
      ≤ capOr1 u.capacity := by
  induction picks with
  | nil => simp
  | cons v rest ih =>
    simp only [List.map_cons, List.nodup_cons] at hnd
    simp only [List.map_cons]
    cases hp : (decide ((Allocation.mk bidv v.id 0).unitId = u.id) &&
        q (Allocation.mk bidv v.id 0)) with
    | false =>
      rw [List.filter_cons_of_neg (by simpa using hp)]
      exact ih hnd.2
    | true =>
      have hvid : v.id = u.id := by
        have := (Bool.and_eq_true _ _).mp hp
        simpa using this.1
      have hrest0 : ((rest.map fun w => Allocation.mk bidv w.id 0).filter
          (fun a => a.unitId = u.id && q a)) = [] := by
        rw [List.filter_eq_nil_iff]
        intro a ha
        obtain ⟨w, hw, rfl⟩ := List.mem_map.mp ha
        simp only [Bool.and_eq_true, decide_eq_true_eq, not_and]
        intro hwid
        exact absurd (List.mem_map.mpr ⟨w, hw, by rw [hwid, hvid]⟩) hnd.1
      rw [List.filter_cons_of_pos (by simpa using hp), List.map_cons, List.sum_cons,
        hrest0]
      simp only [List.map_nil, List.sum_nil, Nat.add_zero]
      unfold seats_used
      simp

end H2H

namespace H2H

/-- C1: the §4.3 capacity invariant — for every unit, the `seats_used` sum of
allocation rows tied to CONFIRMED/PENDING_PAYMENT bookings of a given event
never exceeds the unit's capacity (`capacity or 1`) — is preserved by every
successful run of `allocate_units_for_booking` (on a well-formed state:
distinct unit ids, the booking stored under its id, the booking live), and
the run only allocates units outside the committed taken set
`_units_taken_for_event`. -/
theorem allocate_preserves_capacity (st st' : St) (b : Booking) (pkg : Package)
    (picks : List Unit) (ev0 : ℕ)
    (hev : b.eventId = some ev0)
    (hnd : (st.units.map fun u => u.id).Nodup)
    (hgb : getBooking st b.id = some b)
    (hbst : b.status = BStatus.pendingPayment ∨ b.status = BStatus.confirmed)
    (hinv : CapacityInvariant st)
    (hok : allocate_units_for_booking st b (some pkg) = .ok (st', picks)) :
    CapacityInvariant st' ∧
      ∀ u ∈ picks, u.id ∉ (units_taken_for_event st ev0).map fun t => t.id := by
  obtain ⟨b', hbid, hbev, hbconf, hallocs, hunits, hbooks, -, -, -⟩ :=
    allocate_ok_shape st st' b pkg picks ev0 hev hok
  have hsub := allocate_picks_sublist st st' b pkg picks ev0 hev hok
  have hpick : ∀ u ∈ picks, u ∈ st.units ∧
      u.unitTypeId ∈ utFilterOf b (resolveAllowedIds st pkg) ∧
      u.status = UStatus.available ∧
      u.id ∉ (units_taken_for_event st ev0).map fun t => t.id :=
    fun u hu => mem_eligibleUnits (mem_poolOf (hsub.subset hu))
  have hndp := allocate_picks_id_nodup st st' b pkg picks ev0 hev hnd hok
  have hhold : ∀ ev a, allocHolds st' ev a = allocHolds st ev a :=
    allocHolds_commit st st' b b' hbid hbev hbconf hbst hgb hbooks
  have hah : ∀ (ev : ℕ) (v : Unit),
      allocHolds st ev (Allocation.mk b.id v.id 0) = bookingHolds b ev := by
    intro ev v
    unfold allocHolds
    rw [hgb]
  have hbh : ∀ ev : ℕ, bookingHolds b ev = decide (ev0 = ev) := by
    intro ev
    unfold bookingHolds
    rw [hev]
    rcases hbst with h | h <;> rw [h] <;> by_cases hee : ev0 = ev
    · subst hee
      simp
    · simp [hee]
    · subst hee
      simp
    · simp [hee]
  refine ⟨?_, fun u hu => (hpick u hu).2.2.2⟩
  intro ev u' hu'
  rw [hunits] at hu'
  obtain ⟨u, hu, hfu⟩ := List.mem_map.mp hu'
  have hcap : u'.capacity = u.capacity := by
    rw [← hfu]
    by_cases h : u.id ∈ picks.map (fun v => v.id) <;> simp [h]
  have hid2 : u'.id = u.id := by
    rw [← hfu]
    by_cases h : u.id ∈ picks.map (fun v => v.id) <;> simp [h]
  have hsu : seats_used u' = seats_used u :=
    funext fun a => by simp only [seats_used, capOr1, hcap]
  show eventLoad st' ev u' ≤ capOr1 u'.capacity
  unfold eventLoad
  rw [hallocs, hsu]
  simp only [hid2, hcap]
  have hfc : ((st.allocations ++ picks.map fun v => Allocation.mk b.id v.id 0).filter
        (fun a => a.unitId = u.id && allocHolds st' ev a))
      = ((st.allocations ++ picks.map fun v => Allocation.mk b.id v.id 0).filter
        (fun a => a.unitId = u.id && allocHolds st ev a)) :=
    List.filter_congr fun a _ => by rw [hhold]
  rw [hfc, List.filter_append, List.map_append, List.sum_append]
  by_cases hupick : u.id ∈ picks.map fun v => v.id
  · by_cases hev2 : ev = ev0
    · subst hev2
      obtain ⟨v, hv, hvid⟩ := List.mem_map.mp hupick
      have hnt := (hpick v hv).2.2.2
      rw [hvid] at hnt
      have hold0 : st.allocations.filter
          (fun a => a.unitId = u.id && allocHolds st ev a) = [] := by
        rw [List.filter_eq_nil_iff]
        intro a ha hcon
        simp only [Bool.and_eq_true, decide_eq_true_eq] at hcon
        exact not_taken_no_old st ev u hu hnt a ha hcon
      rw [hold0]
      simp only [List.map_nil, List.sum_nil, Nat.zero_add]
      exact new_rows_sum_le b.id u picks hndp (allocHolds st ev)
    · have hnew0 : ((picks.map fun v => Allocation.mk b.id v.id 0).filter
          (fun a => a.unitId = u.id && allocHolds st ev a)) = [] := by
        rw [List.filter_eq_nil_iff]
        intro a ha hcon
        obtain ⟨v, hv, rfl⟩ := List.mem_map.mp ha
        simp only [Bool.and_eq_true, decide_eq_true_eq] at hcon
        rw [hah, hbh] at hcon
        exact hev2 (of_decide_eq_true hcon.2).symm
      rw [hnew0]
      simp only [List.map_nil, List.sum_nil, Nat.add_zero]
      exact hinv ev u hu
  · have hnew0 : ((picks.map fun v => Allocation.mk b.id v.id 0).filter
        (fun a => a.unitId = u.id && allocHolds st ev a)) = [] := by
      rw [List.filter_eq_nil_iff]
      intro a ha hcon
      obtain ⟨v, hv, rfl⟩ := List.mem_map.mp ha
      simp only [Bool.and_eq_true, decide_eq_true_eq] at hcon
      exact hupick (List.mem_map.mpr ⟨v, hv, hcon.1.symm ▸ rfl⟩)
    rw [hnew0]
    simp only [List.map_nil, List.sum_nil, Nat.add_zero]
    exact hinv ev u hu

end H2H

namespace H2H

/-- Well-formed one-unit, one-booking state used to exercise the allocator
invariants on a concrete run. -/
def stC1 : St where
  units := [unit0]
  unitTypes := []
  allocations := []
  bookings := [booking0]
  orders := []
  events := []

/-- The state committed by the allocator on `stC1`. -/
def stC1' : St := (commitAllocation stC1 booking0 1 1 7 unit0 [unit0]).1

/-- C1 witness: a concrete run of the allocator from an empty-allocation
state preserves the capacity invariant and picks only untaken units. -/
theorem allocate_preserves_capacity_witness :
    CapacityInvariant stC1' ∧
      ∀ u ∈ [unit0], u.id ∉ (units_taken_for_event stC1 1).map fun t => t.id :=
  allocate_preserves_capacity stC1 stC1' booking0 pkgScen [unit0] 1 rfl
    (by decide) (by decide) (Or.inl rfl) (fun ev u _ => Nat.zero_le _) rfl

end H2H

namespace H2H

/-- C10: every allocation row the allocator creates consumes its unit whole —
rows are inserted with `seats = 0`, which `seats_used` reads as the unit's
full capacity (`capacity or 1`); every picked unit is set `OCCUPIED` in the
same commit; and the no-sharing property (two counted rows on one unit
belong to one booking) is preserved for every event, so no seats-level
partial occupancy arises. -/
theorem allocate_consumes_units_whole (st st' : St) (b : Booking) (pkg : Package)
    (picks : List Unit) (ev0 : ℕ)
    (hev : b.eventId = some ev0)
    (hgb : getBooking st b.id = some b)
    (hbst : b.status = BStatus.pendingPayment ∨ b.status = BStatus.confirmed)
    (hns : ∀ ev : ℕ, NoSharing st ev)
    (hok : allocate_units_for_booking st b (some pkg) = .ok (st', picks)) :
    st'.allocations = st.allocations ++ picks.map (fun u => Allocation.mk b.id u.id 0) ∧
    (∀ u ∈ picks, seats_used u (Allocation.mk b.id u.id 0) = capOr1 u.capacity) ∧
    (∀ u' ∈ st'.units, u'.id ∈ picks.map (fun v => v.id) → u'.status = UStatus.occupied) ∧
    (∀ ev : ℕ, NoSharing st' ev) := by
  obtain ⟨b', hbid, hbev, hbconf, hallocs, hunits, hbooks, -, -, -⟩ :=
    allocate_ok_shape st st' b pkg picks ev0 hev hok
  have hsub := allocate_picks_sublist st st' b pkg picks ev0 hev hok
  have hpick : ∀ u ∈ picks, u ∈ st.units ∧
      u.unitTypeId ∈ utFilterOf b (resolveAllowedIds st pkg) ∧
      u.status = UStatus.available ∧
      u.id ∉ (units_taken_for_event st ev0).map fun t => t.id :=
    fun u hu => mem_eligibleUnits (mem_poolOf (hsub.subset hu))
  have hhold : ∀ ev a, allocHolds st' ev a = allocHolds st ev a :=
    allocHolds_commit st st' b b' hbid hbev hbconf hbst hgb hbooks
  have hah : ∀ (ev : ℕ) (v : Unit),
      allocHolds st ev (Allocation.mk b.id v.id 0) = bookingHolds b ev := by
    intro ev v
    unfold allocHolds
    rw [hgb]
  have hbh : ∀ ev : ℕ, bookingHolds b ev = decide (ev0 = ev) := by
    intro ev
    unfold bookingHolds
    rw [hev]
    rcases hbst with h | h <;> rw [h] <;> by_cases hee : ev0 = ev
    · subst hee
      simp
    · simp [hee]
    · subst hee
      simp
    · simp [hee]
  refine ⟨hallocs, ?_, ?_, ?_⟩
  · intro u _
    unfold seats_used
    simp
  · intro u' hu' hid
    rw [hunits] at hu'
    obtain ⟨u, hu, hfu⟩ := List.mem_map.mp hu'
    by_cases h : u.id ∈ picks.map (fun v => v.id)
    · rw [← hfu]
      simp [h]
    · rw [← hfu] at hid
      simp [h] at hid
  · intro ev a1 h1 a2 h2 hh1 hh2 hequ
    rw [hallocs] at h1 h2
    rw [hhold] at hh1 hh2
    rcases List.mem_append.mp h1 with ho1 | hn1 <;>
      rcases List.mem_append.mp h2 with ho2 | hn2
    · exact hns ev a1 ho1 a2 ho2 hh1 hh2 hequ
    · obtain ⟨v, hv, rfl⟩ := List.mem_map.mp hn2
      rw [hah, hbh] at hh2
      obtain rfl : ev0 = ev := of_decide_eq_true hh2
      have hnt := (hpick v hv).2.2.2
      exact absurd ⟨by simpa using hequ, hh1⟩ (not_taken_no_old st ev0 v (hpick v hv).1 hnt a1 ho1)
    · obtain ⟨v, hv, rfl⟩ := List.mem_map.mp hn1
      rw [hah, hbh] at hh1
      obtain rfl : ev0 = ev := of_decide_eq_true hh1
      have hnt := (hpick v hv).2.2.2
      exact absurd ⟨by simpa using hequ.symm, hh2⟩
        (not_taken_no_old st ev0 v (hpick v hv).1 hnt a2 ho2)
    · obtain ⟨v1, hv1, rfl⟩ := List.mem_map.mp hn1
      obtain ⟨v2, hv2, rfl⟩ := List.mem_map.mp hn2
      rfl

end H2H

namespace H2H

/-- C10 witness: the concrete run on `stC1` — the new row is `seats = 0`
over the whole `capacity = 4` unit, the unit ends `OCCUPIED`, and no unit is
shared. -/
theorem allocate_consumes_units_whole_witness :
    stC1'.allocations =
      stC1.allocations ++ [unit0].map (fun u => Allocation.mk booking0.id u.id 0) ∧
    (∀ u ∈ [unit0], seats_used u (Allocation.mk booking0.id u.id 0) = capOr1 u.capacity) ∧
    (∀ u' ∈ stC1'.units, u'.id ∈ [unit0].map (fun v => v.id) →
      u'.status = UStatus.occupied) ∧
    (∀ ev : ℕ, NoSharing stC1' ev) :=
  allocate_consumes_units_whole stC1 stC1' booking0 pkgScen [unit0] 1 rfl
    (by decide) (Or.inl rfl)
    (fun _ a1 h1 => absurd h1 (List.not_mem_nil a1)) rfl

end H2H
